import Mathlib

/-!
Shallow embedding of the seo-info analyzers (headers, URL, social media,
content, schema), the advanced-analysis block of `analyzeSEO`, and the JSON
report emitter, together with theorems settling the specification claims.

JavaScript conventions mirrored here:
* header/attribute maps are association lists; building a JS object from one
  lets later keys overwrite earlier ones;
* absent values are `Option.none`; JS falsiness of a string value is
  `none` or the empty string;
* JS numbers are modelled as `Int`/`Nat`; the only divisions the analyzers
  perform (`Math.round(sum/k)`, averages, `toFixed(2)`) are computed as
  exact integer formulas noted at each definition;
* every source `if` that appends to the running issue/recommendation lists
  and adjusts the running score is rendered through the `jsCheck` /
  `jsCheckElse` combinators, with the source's strings and deltas as
  arguments;
* string helpers (`toLowerCase`, `startsWith`, `endsWith`, `includes`) are
  defined structurally on character lists so that every definition
  evaluates inside the kernel.
-/

namespace SeoInfo

/-! ### JS string primitives -/

/-- `needle.isPrefixOf hay || ...` scan: JS `hay.includes(needle)` on char lists. -/
def jsIncludesL (needle : List Char) : List Char → Bool
  | [] => needle.isEmpty
  | c :: cs => needle.isPrefixOf (c :: cs) || jsIncludesL needle cs

/-- JS `s.includes(sub)`. -/
def jsIncludes (s sub : String) : Bool := jsIncludesL sub.toList s.toList

/-- JS `s.startsWith(p)`. -/
def jsStartsWith (s p : String) : Bool := p.toList.isPrefixOf s.toList

/-- JS `s.endsWith(p)`. -/
def jsEndsWith (s p : String) : Bool := p.toList.isSuffixOf s.toList

/-- ASCII lowercasing of one character (JS `toLowerCase` on the analyzers'
ASCII header names and keywords). -/
def jsToLowerChar (c : Char) : Char :=
  if 'A' ≤ c ∧ c ≤ 'Z' then Char.ofNat (c.toNat + 32) else c

/-- JS `s.toLowerCase()`. -/
def jsToLower (s : String) : String := (s.toList.map jsToLowerChar).asString

/-- JS falsiness of a possibly-absent string: absent, or present but empty. -/
def jsFalsyOpt : Option String → Bool
  | none => true
  | some s => s = ""

/-- JS truthiness of a possibly-absent string. -/
def jsTruthyOpt (o : Option String) : Bool := !jsFalsyOpt o

/-- JS `value || null`: an empty string collapses to null. -/
def jsOrNull : Option String → Option String
  | none => none
  | some s => if s = "" then none else some s

/-- Decimal digits to a number (`parseInt(ds, 10)` for an all-digit string). -/
def digitsToNat (ds : List Char) : Nat :=
  ds.foldl (fun a c => a * 10 + (c.toNat - 48)) 0

/-- JS object built from an assoc list, read at key `q`: later entries win. -/
def jsObjLookup : List (String × String) → String → Option String
  | [], _ => none
  | (k, v) :: rest, q =>
      match jsObjLookup rest q with
      | some w => some w
      | none => if k = q then some v else none

/-! ### The issue/recommendation/score accumulator -/

/-- The (issues, recommendations, score) triple every analyzer builds up. -/
abbrev Acc3 := List String × List String × Int

/-- One source `if`: when `cond` holds, append `iss` to the issue list and
`rcs` to the recommendation list and add `d` to the running score;
otherwise leave the accumulator unchanged. -/
def jsCheck (cond : Bool) (iss rcs : List String) (d : Int) (acc : Acc3) : Acc3 :=
  if cond then (acc.1 ++ iss, acc.2.1 ++ rcs, acc.2.2 + d) else acc

/-- A source `if`/`else` where both branches act on the accumulator. -/
def jsCheckElse (cond : Bool) (iss rcs : List String) (d : Int)
    (eis ers : List String) (ed : Int) (acc : Acc3) : Acc3 :=
  if cond then (acc.1 ++ iss, acc.2.1 ++ rcs, acc.2.2 + d)
  else (acc.1 ++ eis, acc.2.1 ++ ers, acc.2.2 + ed)

theorem jsCheck_score (cond : Bool) (iss rcs : List String) (d : Int) (acc : Acc3) :
    (jsCheck cond iss rcs d acc).2.2 = acc.2.2 + (if cond then d else 0) := by
  unfold jsCheck; split <;> simp

theorem jsCheckElse_score (cond : Bool) (iss rcs : List String) (d : Int)
    (eis ers : List String) (ed : Int) (acc : Acc3) :
    (jsCheckElse cond iss rcs d eis ers ed acc).2.2 =
      acc.2.2 + (if cond then d else ed) := by
  unfold jsCheckElse; split <;> simp

theorem jsCheck_mem (x : String) (cond : Bool) (iss rcs : List String) (d : Int) (acc : Acc3) :
    x ∈ (jsCheck cond iss rcs d acc).1 ↔ x ∈ acc.1 ∨ (cond = true ∧ x ∈ iss) := by
  unfold jsCheck
  split <;> simp_all

theorem jsCheckElse_mem (x : String) (cond : Bool) (iss rcs : List String) (d : Int)
    (eis ers : List String) (ed : Int) (acc : Acc3) :
    x ∈ (jsCheckElse cond iss rcs d eis ers ed acc).1 ↔
      x ∈ acc.1 ∨ (cond = true ∧ x ∈ iss) ∨ (cond = false ∧ x ∈ eis) := by
  unfold jsCheckElse
  split <;> simp_all

/-- `Math.round(sum / k)` for an integer `sum` and positive integer `k`:
`⌊sum/k + 1/2⌋`, computed exactly as `(2*sum + k) / (2*k)` (Lean's `Int./`
rounds toward minus infinity for a positive divisor; no integer `sum/k`
lands exactly on a half for the `k = 4, 5` used here, so round-half-up
agrees with the IEEE evaluation of the source). -/
def jsRoundDiv (sum k : Int) : Int := (2 * sum + k) / (2 * k)

/-! ### Headers analyzer (headers-analyzer.js) -/

/-- A normalized (lowercase-keyed) header object, as a lookup function. -/
abbrev HLookup := String → Option String

/-- Raw headers as captured: an association list of name/value pairs. -/
abbrev HeaderMap := List (String × String)

/-- `normalizedHeaders`: every key lowercased, later keys overwriting earlier. -/
def normalizeHeaders (m : HeaderMap) : HLookup :=
  fun k => jsObjLookup (m.map fun p => (jsToLower p.1, p.2)) k

/-- First match of `/max-age=(\d+)/`: scan for `max-age=` followed by at least
one digit; on a digitless occurrence the regex engine keeps searching. -/
def findMaxAge : List Char → Option Nat
  | [] => none
  | c :: cs =>
      if "max-age=".toList.isPrefixOf (c :: cs) then
        let ds := ((c :: cs).drop 8).takeWhile Char.isDigit
        if ds.isEmpty then findMaxAge cs else some (digitsToNat ds)
      else findMaxAge cs

structure CacheAnalysis where
  issues : List String
  recommendations : List String
  score : Int
  cacheControl : String
  etag : Option String
  lastModified : Option String
deriving Repr, DecidableEq

/-- The `Cache-Control` value checks of `analyzeCacheHeaders`: the
no-store/no-cache, max-age and max-age-value branches. -/
def cacheCCBase (ccv : String) : Acc3 :=
  if jsIncludes ccv "no-store" || jsIncludes ccv "no-cache" then
    (["Cache-Control prevents caching entirely"],
     ["Consider enabling caching for static assets to improve performance"], 0)
  else if !jsIncludes ccv "max-age" then
    (["Cache-Control has no max-age directive"],
     ["Add max-age directive to Cache-Control header for better caching control"], 0)
  else
    match findMaxAge ccv.toList with
    | some maxAge =>
        if maxAge < 86400 then
          (["Short cache period (" ++ toString maxAge ++ " seconds)"],
           ["Consider increasing max-age for static resources to at least 1 day (86400)"], 0)
        else ([], [], 50)
    | none => ([], [], 0)

/-- The whole `Cache-Control` part of `analyzeCacheHeaders`: the missing-
header branch, or the value checks plus the public/private directive check. -/
def cacheCCAcc (h : HLookup) : Acc3 :=
  if !(h "cache-control").isSome then
    (["No Cache-Control header found"],
     ["Add a Cache-Control header to improve resource caching"], 0)
  else
    let ccv := (h "cache-control").getD ""
    (if jsIncludes ccv "public" then jsCheck true [] [] 20
     else jsCheck (!jsIncludes ccv "private") []
       ["Consider adding \"public\" directive to Cache-Control for static resources"] 0)
      (cacheCCBase ccv)

/-- The accumulator of `analyzeCacheHeaders` just before the zero-issues
forcing and the 100 cap: Cache-Control checks, then ETag, then
Last-Modified. -/
def cacheAcc (h : HLookup) : Acc3 :=
  jsCheckElse ((h "last-modified").isNone)
    ["No Last-Modified header found"]
    ["Add Last-Modified header to enable conditional requests"] 0 [] [] 15
    (jsCheckElse ((h "etag").isNone)
      ["No ETag header found"]
      ["Add ETag header to enable conditional requests and save bandwidth"] 0 [] [] 15
      (cacheCCAcc h))

/-- The shared ending of the cache/security/content sub-analyzers: if no
issues were found the score is forced to 100, and the score is capped at
100 in any case. -/
def forceScore (issues : List String) (s : Int) : Int :=
  min 100 (if issues.length = 0 then 100 else s)

/-- `analyzeCacheHeaders(headers)` over the normalized header object. -/
def analyzeCacheHeaders (h : HLookup) : CacheAnalysis :=
  { issues := (cacheAcc h).1
    recommendations := (cacheAcc h).2.1
    score := forceScore (cacheAcc h).1 (cacheAcc h).2.2
    cacheControl := (h "cache-control").getD ""
    etag := jsOrNull (h "etag")
    lastModified := jsOrNull (h "last-modified") }

structure SecurityAnalysis where
  issues : List String
  recommendations : List String
  score : Int
  securityHeadersPresent : List String
deriving Repr, DecidableEq

/-- The fixed `securityHeaders` table: name, presence, recommendation, score. -/
def securityHeaderChecks (h : HLookup) : List (String × Bool × String × Int) :=
  [("strict-transport-security", (h "strict-transport-security").isSome,
    "Add Strict-Transport-Security header to ensure secure connections", 15),
   ("content-security-policy", (h "content-security-policy").isSome,
    "Add Content-Security-Policy header to prevent XSS attacks", 15),
   ("x-content-type-options", (h "x-content-type-options").isSome,
    "Add X-Content-Type-Options: nosniff to prevent MIME type sniffing", 10),
   ("x-frame-options", (h "x-frame-options").isSome,
    "Add X-Frame-Options header to prevent clickjacking", 10),
   ("x-xss-protection", (h "x-xss-protection").isSome,
    "Add X-XSS-Protection header to enable browser XSS filtering", 10),
   ("referrer-policy", (h "referrer-policy").isSome,
    "Add Referrer-Policy header to control referrer information", 10),
   ("feature-policy", (h "feature-policy").isSome || (h "permissions-policy").isSome,
    "Add Permissions-Policy header to control browser features", 10)]

/-- The accumulator of `analyzeSecurityHeaders` before forcing/capping:
the per-header loop, then the HSTS bonus/issue. -/
def securityAcc (h : HLookup) : Acc3 :=
  jsCheckElse (jsTruthyOpt (h "strict-transport-security")) [] [] 20
    ["No HSTS header found, site may not be enforcing HTTPS"]
    ["Implement HTTPS and add Strict-Transport-Security header"] 0
    ((securityHeaderChecks h).foldl
      (fun acc entry =>
        jsCheckElse entry.2.1 [] [] entry.2.2.2
          ["Missing " ++ entry.1 ++ " header"] [entry.2.2.1] 0 acc)
      ([], [], 0))

/-- `analyzeSecurityHeaders(headers)` over the normalized header object. -/
def analyzeSecurityHeaders (h : HLookup) : SecurityAnalysis :=
  { issues := (securityAcc h).1
    recommendations := (securityAcc h).2.1
    score := forceScore (securityAcc h).1 (securityAcc h).2.2
    securityHeadersPresent :=
      ((securityHeaderChecks h).filter fun entry => entry.2.1).map (·.1) }

structure ContentHeadersAnalysis where
  issues : List String
  recommendations : List String
  score : Int
  contentType : Option String
  contentLanguage : Option String
  xRobotsTag : Option String
deriving Repr, DecidableEq

/-- The `Content-Type`/charset part of `analyzeContentHeaders`. -/
def contentTypeAcc (h : HLookup) : Acc3 :=
  if (h "content-type").isNone then
    (["No Content-Type header found"],
     ["Add Content-Type header to specify the MIME type"], 0)
  else
    let ctv := (h "content-type").getD ""
    if !jsIncludes ctv "charset=" then
      (["Content-Type header has no charset specification"],
       ["Add charset to Content-Type header (e.g., text/html; charset=UTF-8)"], 40)
    else if !jsIncludes (jsToLower ctv) "utf-8" then
      (["Content-Type charset is not UTF-8"],
       ["Use UTF-8 charset for better international character support"], 40)
    else ([], [], 40 + 20)

/-- The accumulator of `analyzeContentHeaders` before forcing/capping:
Content-Type checks, then Content-Language, then X-Robots-Tag. -/
def contentAcc (h : HLookup) : Acc3 :=
  (if (h "x-robots-tag").isNone then
    jsCheck true []
      ["Consider using X-Robots-Tag header for more granular indexing control"] 0
  else fun acc =>
    jsCheck (jsIncludes ((h "x-robots-tag").getD "") "noindex")
      ["X-Robots-Tag prevents indexing"]
      ["Remove \"noindex\" from X-Robots-Tag if you want the page to be indexed"] 0
      (jsCheck true [] [] 20 acc))
  (jsCheckElse ((h "content-language").isNone)
    ["No Content-Language header found"]
    ["Add Content-Language header to specify the language of your content"] 0
    [] [] 20 (contentTypeAcc h))

/-- `analyzeContentHeaders(headers)` over the normalized header object. -/
def analyzeContentHeaders (h : HLookup) : ContentHeadersAnalysis :=
  { issues := (contentAcc h).1
    recommendations := (contentAcc h).2.1
    score := forceScore (contentAcc h).1 (contentAcc h).2.2
    contentType := jsOrNull (h "content-type")
    contentLanguage := jsOrNull (h "content-language")
    xRobotsTag := jsOrNull (h "x-robots-tag") }

structure CompressionAnalysis where
  issues : List String
  recommendations : List String
  score : Int
  contentEncoding : Option String
  vary : Option String
deriving Repr, DecidableEq

/-- The `Content-Encoding` part of `analyzeCompression`. -/
def compressionEncAcc (h : HLookup) : Acc3 :=
  let enc := (h "content-encoding").getD ""
  if !jsTruthyOpt (h "content-encoding") then
    (["No Content-Encoding header found, compression may not be enabled"],
     ["Enable GZIP or Brotli compression to reduce page size and improve load times"], 0)
  else if jsIncludes enc "br" then ([], [], 100)
  else if jsIncludes enc "gzip" then
    ([], ["Consider using Brotli compression instead of GZIP for better compression ratios"], 80)
  else if jsIncludes enc "deflate" then
    ([], ["Consider using Brotli or GZIP compression instead of deflate"], 70)
  else
    (["Unknown compression method: " ++ enc],
     ["Use standard compression methods like Brotli or GZIP"], 50)

/-- The accumulator of `analyzeCompression` before the 100 cap:
Content-Encoding checks, then the Vary check. -/
def compressionAcc (h : HLookup) : Acc3 :=
  (if (h "vary").isNone then
    jsCheck true ["No Vary header found"]
      ["Add Vary: Accept-Encoding header when using compression"] 0
  else
    jsCheckElse (!jsIncludes ((h "vary").getD "") "Accept-Encoding")
      ["Vary header does not include Accept-Encoding"]
      ["Update Vary header to include Accept-Encoding when using compression"] 0
      [] [] 20) (compressionEncAcc h)

/-- `analyzeCompression(headers)` over the normalized header object.  Unlike
the other three sub-analyzers, there is no zero-issues score forcing. -/
def analyzeCompression (h : HLookup) : CompressionAnalysis :=
  { issues := (compressionAcc h).1
    recommendations := (compressionAcc h).2.1
    score := min 100 (compressionAcc h).2.2
    contentEncoding := jsOrNull (h "content-encoding")
    vary := jsOrNull (h "vary") }

structure HeadersFullResult where
  cacheAnalysis : CacheAnalysis
  securityAnalysis : SecurityAnalysis
  contentAnalysis : ContentHeadersAnalysis
  compressionAnalysis : CompressionAnalysis
  issues : List String
  recommendations : List String
  score : Int
deriving Repr, DecidableEq

/-- The two shapes `analyzeHeaders` can return: the early empty-map shape,
or the full analysis record. -/
inductive HeadersReport
  | noHeaders (issues recommendations : List String) (score : Int)
  | analyzed (r : HeadersFullResult)
deriving Repr, DecidableEq

def HeadersReport.score : HeadersReport → Int
  | .noHeaders _ _ s => s
  | .analyzed r => r.score

/-- `analyzeHeaders(headers)` on the raw (pre-normalization) header map. -/
def analyzeHeaders (m : HeaderMap) : HeadersReport :=
  if m.length = 0 then
    .noHeaders ["No headers provided for analysis"]
      ["Ensure HTTP headers are properly captured and provided for analysis"] 0
  else
    let h := normalizeHeaders m
    let cacheAnalysis := analyzeCacheHeaders h
    let securityAnalysis := analyzeSecurityHeaders h
    let contentAnalysis := analyzeContentHeaders h
    let compressionAnalysis := analyzeCompression h
    .analyzed
      { cacheAnalysis := cacheAnalysis
        securityAnalysis := securityAnalysis
        contentAnalysis := contentAnalysis
        compressionAnalysis := compressionAnalysis
        issues := cacheAnalysis.issues ++ securityAnalysis.issues ++
          contentAnalysis.issues ++ compressionAnalysis.issues
        recommendations := cacheAnalysis.recommendations ++ securityAnalysis.recommendations ++
          contentAnalysis.recommendations ++ compressionAnalysis.recommendations
        score := jsRoundDiv (cacheAnalysis.score + securityAnalysis.score +
          contentAnalysis.score + compressionAnalysis.score) 4 }

/-! ### URL analyzer (url-analyzer source file)

`new URL(url)` is host-platform parsing; the embedding takes the parsed
state directly: a `ParsedUrl` when parsing succeeds, `none` when the input
is missing or unparseable (both source branches return the same
score-0 record shape). -/

/-- The fields of a WHATWG `URL` object that the analyzer reads.  Query
parameters are the ordered key/value pairs of `searchParams`. -/
structure ParsedUrl where
  protocol : String
  hostname : String
  pathname : String
  search : String
  params : List (String × String)
deriving Repr, DecidableEq

structure UrlSubAnalysis where
  issues : List String
  recommendations : List String
  score : Int
deriving Repr, DecidableEq

/-- `analyzeProtocol(parsedUrl)`. -/
def analyzeProtocol (u : ParsedUrl) : UrlSubAnalysis :=
  if u.protocol = "https:" then ⟨[], [], 100⟩
  else if u.protocol = "http:" then
    ⟨["Site uses HTTP instead of HTTPS"],
     ["Migrate to HTTPS for better security and SEO performance"], 40⟩
  else
    ⟨["Unusual protocol: " ++ u.protocol],
     ["Use HTTPS protocol for website URLs"], 20⟩

/-- JS `s.split(sep)` for a single-character separator: splits on every
occurrence, keeping empty pieces. -/
def jsSplitOn (sep : Char) (cs : List Char) : List (List Char) :=
  match cs with
  | [] => [[]]
  | c :: rest =>
      let tail := jsSplitOn sep rest
      if c = sep then [] :: tail
      else
        match tail with
        | [] => [[c]]
        | piece :: more => (c :: piece) :: more

/-- Count of hyphen characters: the length of the global hyphen-regex match. -/
def hyphenCount (cs : List Char) : Nat := cs.countP (· == '-')

/-- The accumulator of `analyzeDomain` before the 0 floor (checks applied
inside-out: length, subdomains, TLD, hyphens, digits). -/
def domainAcc (u : ParsedUrl) : Acc3 :=
  let hostname := u.hostname
  let hasWww := jsStartsWith hostname "www."
  let hostParts := jsSplitOn '.' hostname.toList
  let tld := (hostParts.getLast? |>.getD []).asString
  let domainPart := String.intercalate "."
    (((hostParts.drop (if hasWww then 1 else 0)).dropLast).map (·.asString))
  jsCheck (domainPart.toList.any Char.isDigit) []
    ["Consider avoiding numbers in domain names for better memorability"] (-5)
    (jsCheck (decide (hyphenCount domainPart.toList > 1))
      ["Multiple hyphens in domain name may look spammy"]
      ["Limit hyphens in domain names for better brand perception"] (-15)
      (jsCheck (!(["com", "org", "net", "edu", "gov", "co", "io", "app"].contains tld)) []
        ["Consider using a common TLD like .com for better recognition"] 0
        (jsCheck (decide ((hostParts.length : Int) - (if hasWww then 2 else 1) > 1))
          ["Multiple subdomains may dilute SEO value"]
          ["Consider consolidating content under fewer subdomains"] (-10)
          (jsCheck (decide (hostname.length > 50))
            ["Domain name is excessively long"]
            ["Consider using a shorter domain name for better memorability"] (-20)
            ([], [], 100)))))

/-- `analyzeDomain(parsedUrl)`. -/
def analyzeDomain (u : ParsedUrl) : UrlSubAnalysis :=
  ⟨(domainAcc u).1, (domainAcc u).2.1, max 0 (domainAcc u).2.2⟩

/-- JS `\w` (ASCII word character). -/
def jsWordChar (c : Char) : Bool := c.isAlpha || c.isDigit || c == '_'

/-- Path segments: `pathname.split('/').filter(s => s.length > 0)`. -/
def pathSegments (pathname : String) : List (List Char) :=
  (jsSplitOn '/' pathname.toList).filter (fun s => decide (s.length > 0))

/-- The trailing file-extension capture of the `[a-zA-Z0-9]+` run after a
final dot, anchored at the end of the pathname. -/
def fileExtension (pathname : List Char) : Option (List Char) :=
  let revExt := pathname.reverse.takeWhile (fun c => c.isAlpha || c.isDigit)
  match pathname.reverse.drop revExt.length with
  | '.' :: _ => if revExt.isEmpty then none else some revExt.reverse
  | _ => none

/-- The keyword-stuffing word list: segments joined by a space, split on
hyphens and underscores, empty chunks dropped (so a chunk may span a
segment boundary, mirroring the source's split of the joined text). -/
def pathWords (pathname : String) : List (List Char) :=
  let segmentText := (pathSegments pathname).intersperse [' '] |>.flatten
  ((segmentText.splitOnP (fun c => c == '-' || c == '_'))).filter (fun s => decide (s.length > 0))

/-- First-occurrence-order distinct entries of `pathWords` with their counts
(the `wordFrequency` object's entries). -/
def wordFrequencyEntries (ws : List (List Char)) : List (List Char × Nat) :=
  (ws.foldl (fun acc w => if acc.any (· == w) then acc else acc ++ [w]) []).map
    (fun w => (w, ws.count w))

/-- `repeatedWords`: distinct words occurring more than once. -/
def repeatedWords (pathname : String) : List (List Char) :=
  ((wordFrequencyEntries (pathWords pathname)).filter (fun e => decide (e.2 > 1))).map (·.1)

/-- The five structural path checks: length, depth, uppercase, special
characters, underscores. -/
def pathCoreAcc (pathname : String) : Acc3 :=
  jsCheck (jsIncludes pathname "_")
      ["URL contains underscores"]
      ["Use hyphens instead of underscores to separate words in URLs"] (-10)
      (jsCheck (pathname.toList.any fun c => !(jsWordChar c || c == '-' || c == '/'))
        ["URL contains special characters or spaces"]
        ["Use only alphanumeric characters, hyphens, and slashes in URLs"] (-15)
        (jsCheck (pathname.toList.any Char.isUpper)
          ["URL contains uppercase letters"]
          ["Use lowercase letters in URLs for consistency and to avoid duplicate content issues"]
          (-15)
          (jsCheck (decide ((pathSegments pathname).length > 4))
            ["URL has deep folder structure (more than 4 levels)"]
            ["Flatten site structure to keep important content closer to the root"] (-10)
            (jsCheck (decide (pathname.length > 100))
              ["URL path is excessively long"]
              ["Shorten URL paths to be more user and search engine friendly"] (-20)
              ([], [], 100)))))

/-- The accumulator of `analyzePath` up to (but excluding) the
keyword-stuffing check: the five structural checks, then the file-
extension check. -/
def pathChecksPreStuffing (u : ParsedUrl) : Acc3 :=
  match fileExtension u.pathname.toList with
  | some ext =>
      jsCheck (!(["html", "htm", "php"].contains ext.asString)) []
        ["Consider using clean URLs without file extensions"] (-5) (pathCoreAcc u.pathname)
  | none => pathCoreAcc u.pathname

/-- The accumulator of `analyzePath` before the 0 floor: the six structural
checks, then the keyword-stuffing check (`repeatedWords.length > 1`). -/
def pathAcc (u : ParsedUrl) : Acc3 :=
  jsCheck (decide ((repeatedWords u.pathname).length > 1))
    ["URL appears to contain repeated keywords"] ["Avoid keyword stuffing in URLs"] (-15)
    (pathChecksPreStuffing u)

/-- `analyzePath(parsedUrl)`. -/
def analyzePath (u : ParsedUrl) : UrlSubAnalysis :=
  ⟨(pathAcc u).1, (pathAcc u).2.1, max 0 (pathAcc u).2.2⟩

/-- The accumulator of `analyzeQueryParameters` before the 0 floor. -/
def queryAcc (u : ParsedUrl) : Acc3 :=
  let paramCount : Int := (u.params.length : Int)
  if paramCount > 0 then
    jsCheck (["sid", "session", "sessid", "id", "token", "auth"].any
        fun p => u.params.any fun kv => jsIncludes (jsToLower kv.1) p)
      ["URL may contain session IDs or dynamic parameters"]
      ["Avoid using session IDs or user-specific parameters in URLs to prevent duplicate content"]
      (-20)
      (jsCheck (["utm_source", "utm_medium", "utm_campaign", "utm_term", "utm_content",
          "gclid", "fbclid", "ref", "source", "campaign"].any
            fun p => u.params.any fun kv => kv.1 == p)
        ["URL contains tracking parameters which should be canonicalized"]
        ["Use canonical tags or parameter handling in Google Search Console for URLs with tracking parameters"]
        (-15)
        (jsCheck (decide (paramCount > 3))
          ["URL has " ++ toString paramCount ++ " query parameters, which may be excessive"]
          ["Limit the number of query parameters in URLs"] (-(10 * min 5 (paramCount - 3)))
          ([], ["Consider using path segments instead of query parameters for important content"],
           100 - 10)))
  else ([], [], 100)

/-- `analyzeQueryParameters(parsedUrl)`. -/
def analyzeQueryParameters (u : ParsedUrl) : UrlSubAnalysis :=
  ⟨(queryAcc u).1, (queryAcc u).2.1, max 0 (queryAcc u).2.2⟩

/-- Whether a pathname has a trailing slash beyond the root. -/
def hasTrailingSlash (pathname : String) : Bool :=
  decide (pathname.length > 1) && jsEndsWith pathname "/"

/-- The `/parent/` path string built from all but the last segment. -/
def parentPathOf (segs : List (List Char)) : String :=
  if segs.length > 1 then
    "/" ++ String.intercalate "/" ((segs.dropLast).map (·.asString)) ++ "/"
  else "/"

/-- The accumulator of `analyzeCrawlPath` (sibling list non-empty) before
the 0 floor.  The depth check compares the current segment count against
`averageDepth + 2` where `averageDepth = sum/len`; multiplied out by the
positive `len`, this is `current * len > sum + 2 * len`, exactly the
source's rational comparison. -/
def crawlAcc (u : ParsedUrl) (pageUrls : List (Option ParsedUrl)) : Acc3 :=
  let currentPath := u.pathname
  let currentPathSegments := pathSegments currentPath
  let pathDepths := pageUrls.map fun o =>
    match o with
    | some other => (pathSegments other.pathname).length
    | none => 0
  let parentPath := parentPathOf currentPathSegments
  let siblingUrls := pageUrls.filter fun o =>
    match o with
    | some other =>
        let otherPathSegments := pathSegments other.pathname
        if otherPathSegments.length = currentPathSegments.length then
          parentPathOf otherPathSegments == parentPath && other.pathname != currentPath
        else false
    | none => false
  let inconsistentUrls := pageUrls.filter fun o =>
    match o with
    | some other =>
        hasTrailingSlash currentPath != hasTrailingSlash other.pathname ||
        currentPath.toList.any Char.isUpper != other.pathname.toList.any Char.isUpper
    | none => false
  jsCheck (decide (inconsistentUrls.length > 0))
    ["URL format inconsistency detected across site"]
    ["Maintain consistent URL patterns across the site (trailing slashes, case)"] (-10)
    (jsCheck (decide (currentPathSegments.length > 1) && decide (siblingUrls.length < 2))
      [] ["This URL has few sibling pages. Consider building out the content section."] (-5)
      (jsCheck (decide ((currentPathSegments.length : Int) * (pathDepths.length : Int) >
          (pathDepths.sum : Int) + 2 * (pathDepths.length : Int)))
        ["URL is significantly deeper than average site URLs"]
        ["Consider restructuring content to be closer to the root"] (-15)
        ([], [], 100)))

/-- `analyzeCrawlPath(parsedUrl, pageUrls)`: each sibling URL is its parsed
state, or `none` where `new URL(url)` would throw. -/
def analyzeCrawlPath (u : ParsedUrl) (pageUrls : List (Option ParsedUrl)) : UrlSubAnalysis :=
  if pageUrls.length = 0 then
    ⟨[], ["Provide multiple page URLs to enable crawl path analysis"], 100⟩
  else
    ⟨(crawlAcc u pageUrls).1, (crawlAcc u pageUrls).2.1, max 0 (crawlAcc u pageUrls).2.2⟩

structure UrlFullResult where
  protocolAnalysis : UrlSubAnalysis
  domainAnalysis : UrlSubAnalysis
  pathAnalysis : UrlSubAnalysis
  queryAnalysis : UrlSubAnalysis
  crawlPathAnalysis : UrlSubAnalysis
  issues : List String
  recommendations : List String
  score : Int
deriving Repr, DecidableEq

/-- The two shapes `analyzeUrl` can return: the missing/invalid-URL shape,
or the full analysis record. -/
inductive UrlReport
  | invalid (issues recommendations : List String) (score : Int)
  | analyzed (r : UrlFullResult)
deriving Repr, DecidableEq

def UrlReport.score : UrlReport → Int
  | .invalid _ _ s => s
  | .analyzed r => r.score

/-- `analyzeUrl(url, pageUrls)`: `none` covers both the missing-URL branch
and the `new URL` failure branch (identical score-0 shapes). -/
def analyzeUrl (url : Option ParsedUrl) (pageUrls : List (Option ParsedUrl)) : UrlReport :=
  match url with
  | none =>
      .invalid ["No URL provided for analysis"] ["Provide a URL for analysis"] 0
  | some u =>
      let protocolAnalysis := analyzeProtocol u
      let domainAnalysis := analyzeDomain u
      let pathAnalysis := analyzePath u
      let queryAnalysis := analyzeQueryParameters u
      let crawlPathAnalysis := analyzeCrawlPath u pageUrls
      .analyzed
        { protocolAnalysis := protocolAnalysis
          domainAnalysis := domainAnalysis
          pathAnalysis := pathAnalysis
          queryAnalysis := queryAnalysis
          crawlPathAnalysis := crawlPathAnalysis
          issues := protocolAnalysis.issues ++ domainAnalysis.issues ++ pathAnalysis.issues ++
            queryAnalysis.issues ++ crawlPathAnalysis.issues
          recommendations := protocolAnalysis.recommendations ++ domainAnalysis.recommendations ++
            pathAnalysis.recommendations ++ queryAnalysis.recommendations ++
            crawlPathAnalysis.recommendations
          score := jsRoundDiv (protocolAnalysis.score + domainAnalysis.score +
            pathAnalysis.score + queryAnalysis.score + crawlPathAnalysis.score) 5 }

/-! ### Social media analyzer (social-media-analyzer source file)

The DOM is abstracted to the facts the analyzer queries: meta tags with
their `name`/`property`/`content` attributes, anchors (`a[href]`) with the
attributes and layout facts read by the helpers (`isElementInHeader`,
`isElementInFooter`, `isElementHidden`, main-content containment,
text/icon presence), the canonical link, and the presence of share-hint
and share-count elements.  `new URL` validity is the oracle `urlOk`.
The `data` payloads of the sub-results (echoes of the read tags, never
consulted by any scoring logic or claim) are not modelled. -/

structure FacetResult where
  issues : List String
  recommendations : List String
  score : Int
deriving Repr, DecidableEq

/-- The shared ending of the social sub-analyzers:
`Math.min(100, Math.max(0, score))`. -/
def clampScore (acc : Acc3) : FacetResult :=
  ⟨acc.1, acc.2.1, min 100 (max 0 acc.2.2)⟩

structure MetaTag where
  nameAttr : Option String
  propAttr : Option String
  content : Option String
deriving Repr, DecidableEq

structure Anchor where
  href : String
  target : Option String
  hidden : Bool
  inHeader : Bool
  inFooter : Bool
  hasTextOrIcon : Bool
  inMain : Bool
deriving Repr, DecidableEq

structure SocialDoc where
  metas : List MetaTag
  anchors : List Anchor
  canonicalHref : Option String
  hasShareHintElements : Bool
  hasShareCountElements : Bool
  hasMain : Bool
deriving Repr, DecidableEq

/-- `getMetaContent(document, selector)` for a `meta[property="p"]` selector. -/
def getMetaByProp (d : SocialDoc) (p : String) : Option String :=
  match d.metas.find? (fun m => m.propAttr == some p) with
  | some m => m.content
  | none => none

/-- `getMetaContent(document, selector)` for a `meta[name="n"]` selector. -/
def getMetaByName (d : SocialDoc) (n : String) : Option String :=
  match d.metas.find? (fun m => m.nameAttr == some n) with
  | some m => m.content
  | none => none

/-- `isValidUrl(url)`: absolute `http(s)` prefix and host-parser acceptance. -/
def isValidUrl (urlOk : String → Bool) : Option String → Bool
  | none => false
  | some url =>
      if url = "" then false
      else (jsStartsWith url "http://" || jsStartsWith url "https://") && urlOk url

/-- `meta[property^="og:"]` tags. -/
def ogTagsOf (d : SocialDoc) : List MetaTag :=
  d.metas.filter fun m =>
    match m.propAttr with
    | some s => jsStartsWith s "og:"
    | none => false

/-- `meta[name^="twitter:"]` tags. -/
def twitterTagsOf (d : SocialDoc) : List MetaTag :=
  d.metas.filter fun m =>
    match m.nameAttr with
    | some s => jsStartsWith s "twitter:"
    | none => false

/-- The accumulator of `analyzeOpenGraph` before the [0,100] clamp. -/
def ogAcc (urlOk : String → Bool) (d : SocialDoc) : Acc3 :=
  let ogTags := ogTagsOf d
  let title := getMetaByProp d "og:title"
  let description := getMetaByProp d "og:description"
  let image := getMetaByProp d "og:image"
  let ufield := getMetaByProp d "og:url"
  let tfield := getMetaByProp d "og:type"
  let siteName := getMetaByProp d "og:site_name"
  if ogTags.length = 0 then
    (["No Open Graph meta tags found"],
     ["Add Open Graph meta tags for better social media sharing"], 0)
  else
    let essentials : List (String × Option String × Int × String) :=
      [("og:title", title, 20, "Add og:title meta tag for better social sharing"),
       ("og:description", description, 15, "Add og:description meta tag for better social sharing"),
       ("og:image", image, 20, "Add og:image meta tag for better social sharing"),
       ("og:url", ufield, 10, "Add og:url meta tag to specify the canonical URL for the page"),
       ("og:type", tfield, 10,
        "Add og:type meta tag to specify the type of content (e.g., website, article)")]
    let acc0 : Acc3 :=
      essentials.foldl
        (fun acc tag =>
          jsCheckElse (jsFalsyOpt tag.2.1)
            ["Missing " ++ tag.1 ++ " meta tag"] [tag.2.2.2] 0 [] [] tag.2.2.1 acc)
        ([], [], 20)
    let acc1 : Acc3 :=
      jsCheckElse (jsFalsyOpt siteName)
        [] ["Add og:site_name meta tag for better brand recognition"] 0 [] [] 5 acc0
    if jsTruthyOpt image then
      jsCheckElse (jsFalsyOpt (getMetaByProp d "og:image:width") ||
          jsFalsyOpt (getMetaByProp d "og:image:height"))
        [] ["Add og:image:width and og:image:height for better image rendering on social platforms"]
        0 [] [] 5
        (jsCheck (!isValidUrl urlOk image)
          ["og:image URL may not be valid or is relative"]
          ["Use absolute URLs for og:image meta tags"] (-10) acc1)
    else acc1

/-- `analyzeOpenGraph(document)`. -/
def analyzeOpenGraph (urlOk : String → Bool) (d : SocialDoc) : FacetResult :=
  clampScore (ogAcc urlOk d)

/-- The accumulator of `analyzeTwitterCard` before the [0,100] clamp. -/
def twitterAcc (urlOk : String → Bool) (d : SocialDoc) : Acc3 :=
  let twitterTags := twitterTagsOf d
  let card := getMetaByName d "twitter:card"
  let title := getMetaByName d "twitter:title"
  let description := getMetaByName d "twitter:description"
  let image := getMetaByName d "twitter:image"
  let site := getMetaByName d "twitter:site"
  let acc : Acc3 :=
    if twitterTags.length = 0 then
      (["No Twitter Card meta tags found"],
       ["Add Twitter Card meta tags for better Twitter sharing"], 0)
    else
      let essentials : List (String × Option String × Int × String) :=
        [("twitter:card", card, 20, "Add twitter:card meta tag to specify the card type"),
         ("twitter:title", title, 15, "Add twitter:title meta tag for better Twitter sharing"),
         ("twitter:description", description, 15,
          "Add twitter:description meta tag for better Twitter sharing"),
         ("twitter:image", image, 15, "Add twitter:image meta tag for better Twitter sharing")]
      let acc0 : Acc3 :=
        essentials.foldl
          (fun acc tag =>
            jsCheckElse (jsFalsyOpt tag.2.1)
              ["Missing " ++ tag.1 ++ " meta tag"] [tag.2.2.2] 0 [] [] tag.2.2.1 acc)
          ([], [], 20)
      let acc1 : Acc3 :=
        jsCheckElse (jsFalsyOpt site)
          [] ["Add twitter:site meta tag with your Twitter username"] 0 [] [] 5 acc0
      let acc2 : Acc3 :=
        (if jsTruthyOpt card then
          jsCheck (!(["summary", "summary_large_image", "app", "player"].contains (card.getD "")))
            ["Unknown twitter:card value: " ++ card.getD ""]
            ["Use a valid Twitter card type: summary, summary_large_image, app, or player"] (-10)
        else fun a => a) acc1
      jsCheck (jsTruthyOpt image && !isValidUrl urlOk image)
        ["twitter:image URL may not be valid or is relative"]
        ["Use absolute URLs for twitter:image meta tags"] (-10) acc2
  jsCheck (decide (twitterTags.length = 0) && decide ((ogTagsOf d).length > 0))
    [] ["Twitter Cards can fall back to Open Graph tags, but explicit Twitter Card tags are recommended"]
    10 acc

/-- `analyzeTwitterCard(document)`. -/
def analyzeTwitterCard (urlOk : String → Bool) (d : SocialDoc) : FacetResult :=
  clampScore (twitterAcc urlOk d)

/-- The ten social-platform patterns of `analyzeSocialLinks`. -/
def socialPlatforms : List (String × List String) :=
  [("Facebook", ["facebook.com", "fb.com"]),
   ("Twitter", ["twitter.com", "x.com"]),
   ("LinkedIn", ["linkedin.com"]),
   ("Instagram", ["instagram.com"]),
   ("YouTube", ["youtube.com", "youtu.be"]),
   ("Pinterest", ["pinterest.com"]),
   ("TikTok", ["tiktok.com"]),
   ("Reddit", ["reddit.com"]),
   ("Discord", ["discord.com", "discord.gg"]),
   ("Snapchat", ["snapchat.com"])]

/-- `href && href.includes(pattern)` for an anchor's href attribute. -/
def hrefIncludes (href pat : String) : Bool :=
  (href != "") && jsIncludes href pat

/-- The accumulator of `analyzeSocialLinks` before the [0,100] clamp. -/
def linksAcc (d : SocialDoc) : Acc3 :=
  let links := d.anchors
  let socialLinks := links.filter fun l =>
    socialPlatforms.any fun pl => pl.2.any fun pat => hrefIncludes l.href pat
  let linkedPlatforms := (socialPlatforms.filter fun pl =>
    (socialLinks.filter fun l => pl.2.any fun pat => hrefIncludes l.href pat).length > 0).map (·.1)
  let acc : Acc3 :=
    if socialLinks.length = 0 then
      (["No social media links found on the page"],
       ["Add links to your social media profiles for better connectivity"], 0)
    else
      let missingCommonPlatforms :=
        ["Facebook", "Twitter", "LinkedIn", "Instagram"].filter
          fun p => !(linkedPlatforms.contains p)
      jsCheck ((socialLinks.filter (·.hasTextOrIcon)).length < socialLinks.length)
        ["Some social media links may not have visible text or icons"]
        ["Add descriptive text or icons to social media links"] (-10)
        (jsCheckElse ((socialLinks.filter fun l => l.target == some "_blank").length <
            socialLinks.length)
          [] ["Make social media links open in new tabs to prevent users from leaving your site"] 0
          [] [] 10
          (jsCheck ((socialLinks.filter fun l => !l.hidden).length < socialLinks.length)
            ["Some social media links may be hidden"]
            ["Ensure social media links are visible to users"] (-10)
            (jsCheckElse (decide ((socialLinks.filter (·.inHeader)).length > 0) ||
                decide ((socialLinks.filter (·.inFooter)).length > 0))
              [] [] 20
              [] ["Place social media links in header or footer for better visibility"] 0
              (jsCheck (decide (missingCommonPlatforms.length > 0))
                [] ["Consider adding links to these popular platforms: " ++
                  String.intercalate ", " missingCommonPlatforms] 0
                ([], [], min 60 ((linkedPlatforms.length : Int) * 15))))))
  jsCheckElse ((links.filter fun l =>
      (l.href != "") &&
        (jsIncludes l.href "facebook.com/sharer" ||
         jsIncludes l.href "twitter.com/intent/tweet" ||
         jsIncludes l.href "linkedin.com/shareArticle" ||
         jsIncludes l.href "pinterest.com/pin/create/button" ||
         jsIncludes l.href "mailto:" ||
         jsIncludes l.href "share" || jsIncludes l.href "tweet")).length = 0)
    [] ["Consider adding social sharing buttons to make it easy for visitors to share your content"]
    0 [] [] 10 acc

/-- `analyzeSocialLinks(document, url)` (the `url` argument is never read
by the source function). -/
def analyzeSocialLinks (d : SocialDoc) (_url : String) : FacetResult :=
  clampScore (linksAcc d)

/-- The seven sharing-intent patterns of `analyzeSocialSharing`. -/
def sharingPatterns : List (String × List String) :=
  [("Facebook", ["facebook.com/sharer", "facebook.com/share"]),
   ("Twitter", ["twitter.com/intent/tweet", "twitter.com/share"]),
   ("LinkedIn", ["linkedin.com/shareArticle"]),
   ("Pinterest", ["pinterest.com/pin/create"]),
   ("Email", ["mailto:"]),
   ("WhatsApp", ["api.whatsapp.com/send", "web.whatsapp.com/send"]),
   ("Telegram", ["t.me/share"])]

/-- UTF-8 bytes of a code point (for `encodeURIComponent`). -/
def utf8Bytes (c : Char) : List Nat :=
  let n := c.toNat
  if n < 128 then [n]
  else if n < 2048 then [192 + n / 64, 128 + n % 64]
  else if n < 65536 then [224 + n / 4096, 128 + n / 64 % 64, 128 + n % 64]
  else [240 + n / 262144, 128 + n / 4096 % 64, 128 + n / 64 % 64, 128 + n % 64]

def hexDigitUpper (n : Nat) : Char :=
  if n < 10 then Char.ofNat (48 + n) else Char.ofNat (55 + n)

/-- The characters `encodeURIComponent` leaves unescaped (the unreserved
marks include the apostrophe, written by code point). -/
def uriUnreserved (c : Char) : Bool :=
  c.isAlpha || c.isDigit ||
    ['-', '_', '.', '!', '~', '*', '(', ')'].contains c || c.toNat = 39

/-- JS `encodeURIComponent`. -/
def jsEncodeURIComponent (s : String) : String :=
  (s.toList.flatMap fun c =>
    if uriUnreserved c then [c]
    else (utf8Bytes c).flatMap fun b =>
      ['%', hexDigitUpper (b / 16), hexDigitUpper (b % 16)]).asString

/-- The anchors matching one sharing platform's patterns. -/
def sharingButtonsFor (links : List Anchor) (patterns : List String) : List Anchor :=
  links.filter fun l => (l.href != "") && patterns.any fun pat => jsIncludes l.href pat

/-- The accumulator of `analyzeSocialSharing` before the [0,100] clamp. -/
def sharingAcc (d : SocialDoc) : Acc3 :=
  let links := d.anchors
  let sharingOptions := (sharingPatterns.filter fun pl =>
    (sharingButtonsFor links pl.2).length > 0).map (·.1)
  let acc : Acc3 :=
    if sharingOptions.length = 0 then
      if !d.hasShareHintElements then
        (["No social sharing buttons/links found"],
         ["Add social sharing buttons to make content easily shareable"], 0)
      else
        ([], ["Consider using standard social sharing links with proper URLs"], 30)
    else
      let missingCommonPlatforms :=
        ["Facebook", "Twitter", "LinkedIn", "Email"].filter
          fun p => !(sharingOptions.contains p)
      let ogUrl := getMetaByProp d "og:url"
      let pageUrl : Option String := if jsTruthyOpt ogUrl then ogUrl else d.canonicalHref
      let acc1 : Acc3 :=
        jsCheck (decide (missingCommonPlatforms.length > 0))
          [] ["Consider adding sharing options for: " ++
            String.intercalate ", " missingCommonPlatforms] 0
          ([], [], min 60 ((sharingOptions.length : Int) * 15))
      let acc3 : Acc3 :=
        if jsTruthyOpt pageUrl then
          let purl := pageUrl.getD ""
          let facebookShares := sharingButtonsFor links (sharingPatterns.get! 0).2
          let twitterShares := sharingButtonsFor links (sharingPatterns.get! 1).2
          let validFacebookShares := facebookShares.filter fun l =>
            (l.href != "") && jsIncludes l.href "u=" &&
              (jsIncludes l.href (jsEncodeURIComponent purl) ||
               jsIncludes l.href "${url}" || jsIncludes l.href "{url}")
          let validTwitterShares := twitterShares.filter fun l =>
            (l.href != "") && jsIncludes l.href "url=" &&
              (jsIncludes l.href (jsEncodeURIComponent purl) ||
               jsIncludes l.href "${url}" || jsIncludes l.href "{url}")
          jsCheck (decide (twitterShares.length > 0) && decide (validTwitterShares.length = 0))
            ["Twitter sharing links may not properly include the page URL"]
            ["Ensure Twitter sharing links include the proper page URL"] (-10)
            (jsCheck (decide (facebookShares.length > 0) &&
                decide (validFacebookShares.length = 0))
              ["Facebook sharing links may not properly include the page URL"]
              ["Ensure Facebook sharing links include the proper page URL"] (-10) acc1)
        else acc1
      jsCheckElse (!d.hasShareCountElements)
        [] ["Consider displaying share counts for social proof"] 0 [] [] 10 acc3
  (if d.hasMain then
    jsCheckElse (!(sharingPatterns.flatMap fun pl => sharingButtonsFor links pl.2).any (·.inMain))
      [] ["Place sharing buttons near your main content for better visibility"] 0 [] [] 20
  else fun a => a) acc

/-- `analyzeSocialSharing(document)`. -/
def analyzeSocialSharing (d : SocialDoc) : FacetResult :=
  clampScore (sharingAcc d)

structure SocialFullResult where
  openGraphAnalysis : FacetResult
  twitterCardAnalysis : FacetResult
  socialLinksAnalysis : FacetResult
  socialSharingAnalysis : FacetResult
  issues : List String
  recommendations : List String
  score : Int
deriving Repr, DecidableEq

/-- The two shapes `analyzeSocialMedia` can return. -/
inductive SocialReport
  | noDocument (issues recommendations : List String) (score : Int)
  | analyzed (r : SocialFullResult)
deriving Repr, DecidableEq

def SocialReport.score : SocialReport → Int
  | .noDocument _ _ s => s
  | .analyzed r => r.score

/-- `analyzeSocialMedia(document, url)`. -/
def analyzeSocialMedia (urlOk : String → Bool) (doc : Option SocialDoc) (url : String) :
    SocialReport :=
  match doc with
  | none =>
      .noDocument ["No document provided for analysis"] ["Provide a document for analysis"] 0
  | some d =>
      let openGraphAnalysis := analyzeOpenGraph urlOk d
      let twitterCardAnalysis := analyzeTwitterCard urlOk d
      let socialLinksAnalysis := analyzeSocialLinks d url
      let socialSharingAnalysis := analyzeSocialSharing d
      .analyzed
        { openGraphAnalysis := openGraphAnalysis
          twitterCardAnalysis := twitterCardAnalysis
          socialLinksAnalysis := socialLinksAnalysis
          socialSharingAnalysis := socialSharingAnalysis
          issues := openGraphAnalysis.issues ++ twitterCardAnalysis.issues ++
            socialLinksAnalysis.issues ++ socialSharingAnalysis.issues
          recommendations := openGraphAnalysis.recommendations ++
            twitterCardAnalysis.recommendations ++ socialLinksAnalysis.recommendations ++
            socialSharingAnalysis.recommendations
          score := jsRoundDiv (openGraphAnalysis.score + twitterCardAnalysis.score +
            socialLinksAnalysis.score + socialSharingAnalysis.score) 4 }

/-! ### Content analyzer (content-analyzer.js): keyword analysis and the
structure rating helper -/

/-- Wordness of the character left of a position (`none` at the edges). -/
def isWordB : Option Char → Bool
  | none => false
  | some c => jsWordChar c

/-- One global-regex scan counting word-boundary-delimited occurrences of
`kw`: at each position, match `kw` with a boundary on each side (a `\b`
sits where the wordness of the two neighbours differs); after a match the
scan resumes past it.  The fuel starts at the text length and every step
consumes at least one character, so it never runs out early. -/
def wbCountGo (kw : List Char) : Nat → Option Char → List Char → Nat
  | 0, _, _ => 0
  | _ + 1, _, [] => 0
  | fuel + 1, prev, c :: rest =>
      if kw.isPrefixOf (c :: rest) &&
         (isWordB prev != jsWordChar (kw.headD ' ')) &&
         (jsWordChar (kw.getLastD ' ') != isWordB ((c :: rest).drop kw.length).head?) then
        1 + wbCountGo kw fuel (some (kw.getLastD ' ')) ((c :: rest).drop kw.length)
      else wbCountGo kw fuel (some c) rest

/-- The length of the global match list of the word-bounded keyword regex
over the cleaned text, for a non-empty keyword. -/
def wbCount (kw cs : List Char) : Nat :=
  if kw.isEmpty then 0 else wbCountGo kw cs.length none cs

/-- `text.toLowerCase()` with every character outside `\w`/`\s` replaced
by a space. -/
def jsCleanText (text : String) : String :=
  ((jsToLower text).toList.map fun c =>
    if jsWordChar c || c.isWhitespace then c else ' ').asString

/-- The whitespace split of the cleaned text with empty pieces dropped. -/
def jsWords (cleanText : String) : List (List Char) :=
  (cleanText.toList.splitOnP Char.isWhitespace).filter (fun w => decide (w.length > 0))

/-- JS `(num/den).toFixed(2)` for naturals with `den > 0`: round-half-up
to two decimals, computed exactly as `(num*200 + den) / (2*den)` hundredths. -/
def jsToFixed2Ratio (num den : Nat) : String :=
  let scaled := (num * 200 + den) / (2 * den)
  toString (scaled / 100) ++ "." ++
    (if scaled % 100 < 10 then "0" else "") ++ toString (scaled % 100)

/-- `((count / wordsLen) * 100).toFixed(2) + '%'`, including the float
division-by-zero cases (`NaN`/`Infinity` render as their `toFixed` forms). -/
def densityString (count wordsLen : Nat) : String :=
  if wordsLen = 0 then (if count = 0 then "NaN" else "Infinity") ++ "%"
  else jsToFixed2Ratio (count * 100) wordsLen ++ "%"

structure KeywordStat where
  keyword : String
  count : Nat
  density : String
  sufficient : Bool
deriving Repr, DecidableEq

/-- The record `analyzeKeywords` returns.  The `topWords` and
`relevantKeywords` output lists (echoes of the frequency table, never
consulted by any claim) are not modelled; `targetKeywords` is `none`
exactly when the source sets the field to `undefined`. -/
structure KeywordsAnalysis where
  wordCount : Nat
  targetKeywords : Option (List KeywordStat)
deriving Repr, DecidableEq

/-- `analyzeKeywords(text, targetKeywords)` (the target-keyword half). -/
def analyzeKeywords (text : String) (targetKeywords : List String) : KeywordsAnalysis :=
  let cleanText := jsCleanText text
  let words := jsWords cleanText
  let targetKeywordAnalysis := targetKeywords.map fun keyword =>
    let keywordLower := jsToLower keyword
    let count := wbCount keywordLower.toList cleanText.toList
    { keyword := keyword
      count := count
      density := densityString count words.length
      sufficient := count > 0 : KeywordStat }
  { wordCount := words.length
    targetKeywords :=
      if targetKeywordAnalysis.length > 0 then some targetKeywordAnalysis else none }

/-- `getRatingForStructure(avgParagraphLength, longParagraphs,
paragraphCount, lists)`. -/
def getRatingForStructure (avgParagraphLength : ℚ) (longParagraphs paragraphCount lists : Int) :
    String :=
  if avgParagraphLength > 150 ∧ longParagraphs > 5 ∧ lists = 0 then "Poor"
  else if avgParagraphLength > 100 ∧ longParagraphs > 2 then "Below Average"
  else if avgParagraphLength < 80 ∧ paragraphCount > 3 ∧ lists > 0 then "Good"
  else if avgParagraphLength < 60 ∧ paragraphCount > 5 ∧ lists > 1 then "Excellent"
  else "Average"

/-! ### Schema analyzer (schema-analyzer.js): JSON-LD validation -/

/-- A parsed JSON-LD block, restricted to the properties `validateJsonLd`
reads; each is `none` when absent (or otherwise falsy), `some` of its
string form when present. -/
structure JsonLdData where
  context : Option String
  type : Option String
  name : Option String
  description : Option String
  image : Option String
  offers : Option String
  headline : Option String
  author : Option String
  datePublished : Option String
deriving Repr, DecidableEq

structure ValidationResult where
  valid : Bool
  issues : List String
deriving Repr, DecidableEq

/-- `validateJsonLd(data)`; `none` is the falsy-data branch. -/
def validateJsonLd (data : Option JsonLdData) : ValidationResult :=
  match data with
  | none => ⟨false, ["Empty JSON-LD data"]⟩
  | some d =>
      let issues0 : List String :=
        if jsFalsyOpt d.context || !jsIncludes (d.context.getD "") "schema.org" then
          ["Missing or invalid @context (should be schema.org)"]
        else []
      let issues1 : List String :=
        issues0 ++ (if jsFalsyOpt d.type then ["Missing @type property"] else [])
      let issues2 : List String :=
        if d.type == some "Product" then
          issues1 ++
            (if jsFalsyOpt d.name then ["Product schema missing required property: name"] else []) ++
            (if jsFalsyOpt d.description then
              ["Product schema missing recommended property: description"] else []) ++
            (if jsFalsyOpt d.image then
              ["Product schema missing recommended property: image"] else []) ++
            (if jsFalsyOpt d.offers then
              ["Product schema missing recommended property: offers"] else [])
        else if d.type == some "Article" || d.type == some "BlogPosting" then
          issues1 ++
            (if jsFalsyOpt d.headline then
              ["Article schema missing required property: headline"] else []) ++
            (if jsFalsyOpt d.author then
              ["Article schema missing recommended property: author"] else []) ++
            (if jsFalsyOpt d.datePublished then
              ["Article schema missing recommended property: datePublished"] else [])
        else issues1
      ⟨issues2.length = 0, issues2⟩

/-! ### The advanced-analysis block of `analyzeSEO` (index.js)

Inside `analyzeSEO`, every advanced analyzer call sits in one `try` block;
each call's result is assigned to its result-record key as it completes,
and the single `catch` appends one structured error entry.  The block is
modelled as the ordered list of steps, each carrying the key it assigns
and the outcome of its analyzer call (a value, or the exception the
analyzer threw). -/

structure JsError where
  message : String
  stack : String
deriving Repr, DecidableEq

structure AdvancedErrorEntry where
  type : String
  message : String
  stack : String
deriving Repr, DecidableEq

/-- Execute the advanced-analysis `try` block: steps run in order, each
assigning its key; the first thrown exception aborts the block, and the
`catch` records `{type: 'advanced_analysis_error', message, stack}`.
Returns the key/value assignments made and the `results.errors` list. -/
def runAdvancedAnalysis {α : Type} :
    List (String × Except JsError α) → List (String × α) × List AdvancedErrorEntry
  | [] => ([], [])
  | (key, .ok v) :: rest =>
      let r := runAdvancedAnalysis rest
      ((key, v) :: r.1, r.2)
  | (_, .error e) :: _ =>
      ([], [{ type := "advanced_analysis_error", message := e.message, stack := e.stack }])

/-- The assignments a step list would make if every step succeeded. -/
def okResults {α : Type} : List (String × Except JsError α) → List (String × α)
  | [] => []
  | (key, .ok v) :: rest => (key, v) :: okResults rest
  | (_, .error _) :: rest => okResults rest

/-! ### JSON report emitter (json-reporter.js)

`generateJSONReport` writes `JSON.stringify(results, null, 2)` to the
output file; re-reading the report is `JSON.parse` of that text.  The
serialized record is a JSON value tree; a number is carried as the
decimal literal `JSON.stringify` prints for it (ECMA-262 guarantees the
shortest literal that reads back as the same number, so literal identity
is value identity), well-formed when it is non-empty, made of the JSON
number alphabet, and starts with a minus sign or digit — exactly the
shape of every emitted literal. -/

/-- The JSON number-literal alphabet. -/
def numChar (c : Char) : Bool :=
  c.isDigit || c == '-' || c == '+' || c == '.' || c == 'e' || c == 'E'

/-- The characters a number literal can start with: minus sign or digit. -/
def numStartChar (c : Char) : Bool :=
  ['-', '9', '8', '7', '6', '5', '4', '3', '2', '1', '0'].contains c

/-- Shape of a number literal as `JSON.stringify` emits it. -/
def numLitOk (lit : String) : Bool :=
  !lit.toList.isEmpty && lit.toList.all numChar &&
    numStartChar (lit.toList.headD ' ')

/-- A JSON value: the shape of the aggregation record and of anything
`JSON.parse` returns. -/
inductive Json where
  | null
  | bool (b : Bool)
  | num (lit : String)
  | str (s : String)
  | arr (elems : List Json)
  | obj (members : List (String × Json))
deriving Repr, Inhabited

mutual
/-- Every number literal in the tree has the emitted shape. -/
def Json.wf : Json → Bool
  | .null => true
  | .bool _ => true
  | .str _ => true
  | .num lit => numLitOk lit
  | .arr es => wfElems es
  | .obj ms => wfMembers ms
def wfElems : List Json → Bool
  | [] => true
  | e :: es => e.wf && wfElems es
def wfMembers : List (String × Json) → Bool
  | [] => true
  | (_, v) :: ms => v.wf && wfMembers ms
end

def lbrace : Char := Char.ofNat 123
def rbrace : Char := Char.ofNat 125

def hexDigitLower (n : Nat) : Char :=
  if n < 10 then Char.ofNat (48 + n) else Char.ofNat (87 + n)

/-- One character as `QuoteJSONString` emits it: the two-character escapes
for quote, backslash, backspace, tab, newline, form feed and carriage
return, a `\u00xx` escape for the remaining control characters, and the
character itself otherwise. -/
def escapeChar (c : Char) : List Char :=
  if c == '"' then ['\\', '"']
  else if c == '\\' then ['\\', '\\']
  else if c == Char.ofNat 8 then ['\\', 'b']
  else if c == '\t' then ['\\', 't']
  else if c == '\n' then ['\\', 'n']
  else if c == Char.ofNat 12 then ['\\', 'f']
  else if c == '\r' then ['\\', 'r']
  else if decide (c.toNat < 32) then
    ['\\', 'u', '0', '0', hexDigitLower (c.toNat / 16), hexDigitLower (c.toNat % 16)]
  else [c]

/-- A JSON string token: quote, escaped characters, quote. -/
def quoteString (s : String) : List Char :=
  '"' :: (s.toList.flatMap escapeChar ++ ['"'])

/-- `indent` spaces. -/
def pad (n : Nat) : List Char := List.replicate n ' '

def nullChars : List Char := ['n', 'u', 'l', 'l']
def trueChars : List Char := ['t', 'r', 'u', 'e']
def falseChars : List Char := ['f', 'a', 'l', 's', 'e']

mutual
/-- `JSON.stringify(v, null, 2)` at nesting indent `ind`: children are
indented two further spaces, closing brackets at `ind`. -/
def printJson (ind : Nat) : Json → List Char
  | .null => nullChars
  | .bool true => trueChars
  | .bool false => falseChars
  | .num lit => lit.toList
  | .str s => quoteString s
  | .arr [] => ['[', ']']
  | .arr (e :: es) =>
      '[' :: '\n' :: (pad (ind + 2) ++ (printJson (ind + 2) e ++
        (printElemsRest (ind + 2) es ++ ('\n' :: (pad ind ++ [']'])))))
  | .obj [] => [lbrace, rbrace]
  | .obj ((k, v) :: ms) =>
      lbrace :: '\n' :: (pad (ind + 2) ++ (quoteString k ++ (':' :: ' ' ::
        (printJson (ind + 2) v ++
          (printMembersRest (ind + 2) ms ++ ('\n' :: (pad ind ++ [rbrace])))))))
/-- The second and later array elements: comma, newline, indent, element. -/
def printElemsRest (ind : Nat) : List Json → List Char
  | [] => []
  | e :: es => ',' :: '\n' :: (pad ind ++ (printJson ind e ++ printElemsRest ind es))
/-- The second and later object members. -/
def printMembersRest (ind : Nat) : List (String × Json) → List Char
  | [] => []
  | (k, v) :: ms => ',' :: '\n' :: (pad ind ++ (quoteString k ++ (':' :: ' ' ::
      (printJson ind v ++ printMembersRest ind ms))))
end

/-- The text `generateJSONReport` writes to the report file:
`JSON.stringify(results, null, 2)`. -/
def generateJSONReportContents (results : Json) : String :=
  (printJson 0 results).asString

/-- The `JSONWhiteSpace`/`LineTerminator` characters `JSON.parse` skips. -/
def isWsChar (c : Char) : Bool :=
  c == ' ' || c == '\n' || c == '\t' || c == '\r'

def dropWs : List Char → List Char
  | [] => []
  | c :: cs => if isWsChar c then dropWs cs else c :: cs

def hexVal (c : Char) : Option Nat :=
  if '0' ≤ c ∧ c ≤ '9' then some (c.toNat - 48)
  else if 'a' ≤ c ∧ c ≤ 'f' then some (c.toNat - 87)
  else if 'A' ≤ c ∧ c ≤ 'F' then some (c.toNat - 55)
  else none

def unescapeChar : Char → Option Char
  | '"' => some '"'
  | '\\' => some '\\'
  | '/' => some '/'
  | 'b' => some (Char.ofNat 8)
  | 'f' => some (Char.ofNat 12)
  | 'n' => some '\n'
  | 'r' => some '\r'
  | 't' => some '\t'
  | _ => none

/-- The body of a JSON string token after the opening quote; the fuel
starts at the input length and each step consumes at least one character. -/
def parseStringBody (fuel : Nat) (acc cs : List Char) : Option (String × List Char) :=
  match fuel, cs with
  | 0, _ => none
  | _ + 1, [] => none
  | fuel + 1, c :: rest =>
      if c == '"' then some (acc.reverse.asString, rest)
      else if c == '\\' then
        match rest with
        | [] => none
        | e :: rest2 =>
            if e == 'u' then
              match rest2 with
              | a :: b :: c2 :: d :: rest3 =>
                  match hexVal a, hexVal b, hexVal c2, hexVal d with
                  | some va, some vb, some vc, some vd =>
                      parseStringBody fuel
                        (Char.ofNat (((va * 16 + vb) * 16 + vc) * 16 + vd) :: acc) rest3
                  | _, _, _, _ => none
              | _ => none
            else
              match unescapeChar e with
              | some ch => parseStringBody fuel (ch :: acc) rest2
              | none => none
      else parseStringBody fuel (c :: acc) rest

mutual
/-- One JSON value, whitespace-tolerant, returning the unconsumed
suffix; the fuel bounds the nesting/step structure. -/
def parseVal : Nat → List Char → Option (Json × List Char)
  | 0, _ => none
  | fuel + 1, cs =>
      match dropWs cs with
      | [] => none
      | c :: rest =>
          if c == 'n' then
            if ['u', 'l', 'l'].isPrefixOf rest then some (.null, rest.drop 3) else none
          else if c == 't' then
            if ['r', 'u', 'e'].isPrefixOf rest then some (.bool true, rest.drop 3) else none
          else if c == 'f' then
            if ['a', 'l', 's', 'e'].isPrefixOf rest then some (.bool false, rest.drop 4) else none
          else if c == '"' then
            match parseStringBody rest.length [] rest with
            | some (s, r) => some (.str s, r)
            | none => none
          else if c == '[' then
            match dropWs rest with
            | [] => none
            | c2 :: rest2 =>
                if c2 == ']' then some (.arr [], rest2)
                else
                  match parseElems fuel rest with
                  | some (es, r) => some (.arr es, r)
                  | none => none
          else if c == lbrace then
            match dropWs rest with
            | [] => none
            | c2 :: rest2 =>
                if c2 == rbrace then some (.obj [], rest2)
                else
                  match parseMembers fuel rest with
                  | some (ms, r) => some (.obj ms, r)
                  | none => none
          else if c == '-' || c.isDigit then
            let ds := (c :: rest).takeWhile numChar
            some (.num ds.asString, (c :: rest).drop ds.length)
          else none
/-- One or more comma-separated array elements, then the closing bracket. -/
def parseElems : Nat → List Char → Option (List Json × List Char)
  | 0, _ => none
  | fuel + 1, cs =>
      match parseVal fuel cs with
      | none => none
      | some (v, r) =>
          match dropWs r with
          | [] => none
          | c2 :: r2 =>
              if c2 == ',' then
                match parseElems fuel r2 with
                | some (vs, r3) => some (v :: vs, r3)
                | none => none
              else if c2 == ']' then some ([v], r2)
              else none
/-- One or more comma-separated object members, then the closing brace. -/
def parseMembers : Nat → List Char → Option (List (String × Json) × List Char)
  | 0, _ => none
  | fuel + 1, cs =>
      match dropWs cs with
      | [] => none
      | c :: rest =>
          if c == '"' then
            match parseStringBody rest.length [] rest with
            | none => none
            | some (k, r1) =>
                match dropWs r1 with
                | [] => none
                | c2 :: r2 =>
                    if c2 == ':' then
                      match parseVal fuel r2 with
                      | none => none
                      | some (v, r3) =>
                          match dropWs r3 with
                          | [] => none
                          | c3 :: r4 =>
                              if c3 == ',' then
                                match parseMembers fuel r4 with
                                | some (ms, r5) => some ((k, v) :: ms, r5)
                                | none => none
                              else if c3 == rbrace then some ([(k, v)], r4)
                              else none
                    else none
          else none
end

/-- `JSON.parse`: one value, then only whitespace may remain. -/
def jsParse (s : String) : Option Json :=
  match parseVal (s.toList.length + 1) s.toList with
  | some (j, r) => if (dropWs r).isEmpty then some j else none
  | none => none

mutual
/-- The parser fuel a printed value needs (each parser level consumes
one fuel unit before descending). -/
def needV : Json → Nat
  | .null => 1
  | .bool _ => 1
  | .num _ => 1
  | .str _ => 1
  | .arr es => 1 + needL es
  | .obj ms => 1 + needMs ms
/-- The fuel a non-empty printed element list needs. -/
def needL : List Json → Nat
  | [] => 0
  | e :: es => 1 + max (needV e) (needL es)
/-- The fuel a non-empty printed member list needs. -/
def needMs : List (String × Json) → Nat
  | [] => 0
  | (_, v) :: ms => 1 + max (needV v) (needMs ms)
end

/-- Whether the first character (if any) fails the predicate. -/
def headNot (p : Char → Bool) : List Char → Prop
  | [] => True
  | c :: _ => p c = false

/-! ### Supporting lemmas -/

/-! #### JSON codec lemmas -/

theorem toList_asString (l : List Char) : l.asString.toList = l := rfl

theorem asString_toList (s : String) : s.toList.asString = s := rfl

theorem dropWs_ws_append {pre : List Char} (hpre : pre.all isWsChar = true) (cs : List Char) :
    dropWs (pre ++ cs) = dropWs cs := by
  induction pre with
  | nil => rfl
  | cons c pre' ih =>
      simp only [List.all_cons, Bool.and_eq_true] at hpre
      simp [dropWs, hpre.1, ih hpre.2]

theorem dropWs_cons_of_not {c : Char} (hc : isWsChar c = false) (cs : List Char) :
    dropWs (c :: cs) = c :: cs := by
  simp [dropWs, hc]

theorem pad_all_ws (n : Nat) : (pad n).all isWsChar = true := by
  induction n with
  | zero => rfl
  | succ n ih =>
      simp only [pad, List.replicate_succ, List.all_cons, Bool.and_eq_true]
      exact ⟨by decide, ih⟩

theorem dropWs_resolve {pre : List Char} (hpre : pre.all isWsChar = true)
    {c : Char} (hc : isWsChar c = false) (cs : List Char) :
    dropWs (pre ++ c :: cs) = c :: cs := by
  rw [dropWs_ws_append hpre, dropWs_cons_of_not hc]

theorem takeWhile_all_append {p : Char → Bool} {l : List Char} (r : List Char)
    (hl : l.all p = true) (hr : headNot p r) : (l ++ r).takeWhile p = l := by
  induction l with
  | nil =>
      cases r with
      | nil => rfl
      | cons c cs =>
          simp only [headNot] at hr
          simp [List.takeWhile_cons, hr]
  | cons a l' ih =>
      simp only [List.all_cons, Bool.and_eq_true] at hl
      simp [List.takeWhile_cons, hl.1, ih hl.2]

theorem hexVal_hexDigitLower : ∀ k : Nat, k < 16 → hexVal (hexDigitLower k) = some k := by
  decide

theorem escapeChar_length_pos (c : Char) : 1 ≤ (escapeChar c).length := by
  unfold escapeChar
  split_ifs <;> simp

theorem length_le_flatMap_escape (s : List Char) :
    s.length ≤ (s.flatMap escapeChar).length := by
  induction s with
  | nil => simp
  | cons c cs ih =>
      have := escapeChar_length_pos c
      simp only [List.flatMap_cons, List.length_append, List.length_cons]
      omega

theorem needV_pos (j : Json) : 1 ≤ needV j := by
  cases j <;> simp [needV]

theorem needL_pos (e : Json) (es : List Json) : 1 ≤ needL (e :: es) := by
  simp [needL]

theorem needMs_pos (m : String × Json) (ms : List (String × Json)) :
    1 ≤ needMs (m :: ms) := by
  cases m; simp [needMs]

theorem numStart_facts {c : Char} (h : numStartChar c = true) :
    isWsChar c = false ∧ (c == 'n') = false ∧ (c == 't') = false ∧ (c == 'f') = false ∧
    (c == '"') = false ∧ (c == '[') = false ∧ (c == lbrace) = false ∧
    ((c == '-' || c.isDigit) = true) ∧ (c == ']') = false ∧ (c == rbrace) = false := by
  simp [numStartChar] at h
  rcases h with rfl | rfl | rfl | rfl | rfl | rfl | rfl | rfl | rfl | rfl | rfl <;> decide

/-- Stepping the string-body parser over an ordinary (unescaped) character. -/
theorem parseStringBody_step_plain (fuel : Nat) (acc : List Char) (c : Char) (tl : List Char)
    (hq : (c == '"') = false) (hb : (c == '\\') = false) :
    parseStringBody (fuel + 1) acc (c :: tl) = parseStringBody fuel (c :: acc) tl := by
  simp [parseStringBody, hq, hb]

/-- Stepping the string-body parser over a four-hex-digit unicode escape. -/
theorem parseStringBody_step_u (fuel : Nat) (acc : List Char) (a b c2 d : Char)
    (va vb vc vd : Nat) (tl : List Char)
    (ha : hexVal a = some va) (hb : hexVal b = some vb)
    (hc : hexVal c2 = some vc) (hd : hexVal d = some vd) :
    parseStringBody (fuel + 1) acc ('\\' :: 'u' :: a :: b :: c2 :: d :: tl) =
      parseStringBody fuel (Char.ofNat (((va * 16 + vb) * 16 + vc) * 16 + vd) :: acc) tl := by
  simp [parseStringBody, ha, hb, hc, hd]

/-- Parsing the escaped form of a string body recovers it exactly. -/
theorem parseStringBody_escape : ∀ (s : List Char) (acc rest : List Char) (fuel : Nat),
    s.length + 1 ≤ fuel →
    parseStringBody fuel acc (s.flatMap escapeChar ++ '"' :: rest) =
      some ((acc.reverse ++ s).asString, rest)
  | [], acc, rest, fuel + 1, _ => by
      simp [parseStringBody]
  | c :: cs, acc, rest, fuel + 1, hf => by
      have hf' : cs.length + 1 ≤ fuel := by
        simp only [List.length_cons] at hf; omega
      have ih := fun acc' => parseStringBody_escape cs acc' rest fuel hf'
      simp only [List.flatMap_cons, List.append_assoc]
      by_cases h1 : c = '"'
      · subst h1
        show parseStringBody fuel ('"' :: acc) (cs.flatMap escapeChar ++ '"' :: rest) = _
        rw [ih]; simp
      by_cases h2 : c = '\\'
      · subst h2
        show parseStringBody fuel ('\\' :: acc) (cs.flatMap escapeChar ++ '"' :: rest) = _
        rw [ih]; simp
      by_cases h3 : c = Char.ofNat 8
      · subst h3
        show parseStringBody fuel (Char.ofNat 8 :: acc) (cs.flatMap escapeChar ++ '"' :: rest) = _
        rw [ih]; simp
      by_cases h4 : c = '\t'
      · subst h4
        show parseStringBody fuel ('\t' :: acc) (cs.flatMap escapeChar ++ '"' :: rest) = _
        rw [ih]; simp
      by_cases h5 : c = '\n'
      · subst h5
        show parseStringBody fuel ('\n' :: acc) (cs.flatMap escapeChar ++ '"' :: rest) = _
        rw [ih]; simp
      by_cases h6 : c = Char.ofNat 12
      · subst h6
        show parseStringBody fuel (Char.ofNat 12 :: acc) (cs.flatMap escapeChar ++ '"' :: rest) = _
        rw [ih]; simp
      by_cases h7 : c = '\r'
      · subst h7
        show parseStringBody fuel ('\r' :: acc) (cs.flatMap escapeChar ++ '"' :: rest) = _
        rw [ih]; simp
      have e1 : (c == '"') = false := by simpa using h1
      have e2 : (c == '\\') = false := by simpa using h2
      have e3 : (c == Char.ofNat 8) = false := by simpa using h3
      have e4 : (c == '\t') = false := by simpa using h4
      have e5 : (c == '\n') = false := by simpa using h5
      have e6 : (c == Char.ofNat 12) = false := by simpa using h6
      have e7 : (c == '\r') = false := by simpa using h7
      by_cases h8 : c.toNat < 32
      · have hv1 : hexVal (hexDigitLower (c.toNat / 16)) = some (c.toNat / 16) :=
          hexVal_hexDigitLower _ (by omega)
        have hv2 : hexVal (hexDigitLower (c.toNat % 16)) = some (c.toNat % 16) :=
          hexVal_hexDigitLower _ (by omega)
        have hesc : escapeChar c =
            ['\\', 'u', '0', '0', hexDigitLower (c.toNat / 16), hexDigitLower (c.toNat % 16)] := by
          simp [escapeChar, e1, e2, e3, e4, e5, e6, e7, h8]
        rw [hesc]
        simp only [List.cons_append, List.nil_append]
        rw [parseStringBody_step_u fuel acc '0' '0'
            (hexDigitLower (c.toNat / 16)) (hexDigitLower (c.toNat % 16))
            0 0 (c.toNat / 16) (c.toNat % 16)
            (cs.flatMap escapeChar ++ '"' :: rest) rfl rfl hv1 hv2]
        rw [show (((0 * 16 + 0) * 16 + c.toNat / 16) * 16 + c.toNat % 16 : Nat) = c.toNat from by
          omega]
        rw [Char.ofNat_toNat, ih (c :: acc)]; simp
      · have hesc : escapeChar c = [c] := by
          simp [escapeChar, e1, e2, e3, e4, e5, e6, e7, h8]
        rw [hesc]
        simp only [List.cons_append, List.nil_append]
        rw [parseStringBody_step_plain fuel acc c _ e1 e2, ih (c :: acc)]
        simp

theorem numChar_of_ws {c : Char} (h : isWsChar c = true) : numChar c = false := by
  simp [isWsChar] at h
  rcases h with ((rfl | rfl) | rfl) | rfl <;> decide

theorem headNot_ws_append {mid : List Char} (hm : mid.all isWsChar = true)
    {c : Char} (hc : numChar c = false) (r : List Char) :
    headNot numChar (mid ++ c :: r) := by
  cases mid with
  | nil => simpa [headNot] using hc
  | cons m ms =>
      simp only [List.all_cons, Bool.and_eq_true] at hm
      simpa [headNot] using numChar_of_ws hm.1

/-- The first character of a printed value is never whitespace, a closing
bracket, or a closing brace. -/
theorem printJson_head : ∀ (j : Json), j.wf = true → ∀ (ind : Nat),
    ∃ c cs, printJson ind j = c :: cs ∧ isWsChar c = false ∧
      (c == ']') = false ∧ (c == rbrace) = false
  | .null, _, ind =>
      ⟨'n', ['u', 'l', 'l'], by simp [printJson, nullChars], by decide, by decide, by decide⟩
  | .bool true, _, ind =>
      ⟨'t', ['r', 'u', 'e'], by simp [printJson, trueChars], by decide, by decide, by decide⟩
  | .bool false, _, ind =>
      ⟨'f', ['a', 'l', 's', 'e'], by simp [printJson, falseChars], by decide, by decide, by decide⟩
  | .num lit, h, ind => by
      cases hl : lit.toList with
      | nil =>
          simp [Json.wf, numLitOk] at h
          exact absurd hl h.1.1
      | cons c t =>
          simp only [Json.wf, numLitOk, hl, Bool.and_eq_true] at h
          obtain ⟨hws, _, _, _, _, _, _, _, hbr, hrb⟩ :=
            numStart_facts (by simpa using h.2)
          exact ⟨c, t, by simp only [printJson]; exact hl, hws, hbr, hrb⟩
  | .str s, _, ind =>
      ⟨'"', s.toList.flatMap escapeChar ++ ['"'], by simp [printJson, quoteString],
        by decide, by decide, by decide⟩
  | .arr [], _, ind =>
      ⟨'[', [']'], by simp [printJson], by decide, by decide, by decide⟩
  | .arr (e :: es), _, ind =>
      ⟨'[', '\n' :: (pad (ind + 2) ++ (printJson (ind + 2) e ++
          (printElemsRest (ind + 2) es ++ ('\n' :: (pad ind ++ [']']))))),
        by simp [printJson], by decide, by decide, by decide⟩
  | .obj [], _, ind =>
      ⟨lbrace, [rbrace], by simp [printJson], by decide, by decide, by decide⟩
  | .obj ((k, v) :: ms), _, ind =>
      ⟨lbrace, '\n' :: (pad (ind + 2) ++ (quoteString k ++ (':' :: ' ' ::
          (printJson (ind + 2) v ++ (printMembersRest (ind + 2) ms ++
            ('\n' :: (pad ind ++ [rbrace]))))))),
        by simp [printJson], by decide, by decide, by decide⟩

mutual
/-- A well-formed value's fuel requirement is bounded by its printed length. -/
theorem needV_le_print : ∀ (j : Json), j.wf = true → ∀ (ind : Nat),
  needV j ≤ (printJson ind j).length
| .null, _, ind => by simp [needV, printJson, nullChars]
| .bool true, _, ind => by simp [needV, printJson, trueChars]
| .bool false, _, ind => by simp [needV, printJson, falseChars]
| .num lit, h, ind => by
    cases hl : lit.toList with
    | nil =>
        simp [Json.wf, numLitOk] at h
        exact absurd hl h.1.1
    | cons c t =>
        simp only [needV, printJson, hl, List.length_cons]
        omega
| .str s, _, ind => by
    simp only [needV, printJson, quoteString, List.length_cons]
    omega
| .arr [], _, ind => by simp [needV, needL, printJson]
| .arr (e :: es), h, ind => by
    simp only [Json.wf, wfElems, Bool.and_eq_true] at h
    have h1 := needV_le_print e h.1 (ind + 2)
    have h2 := needL_le_print es h.2 (ind + 2)
    simp only [needV, needL, printJson, List.length_cons, List.length_append,
      pad, List.length_replicate]
    omega
| .obj [], _, ind => by simp [needV, needMs, printJson]
| .obj ((k, v) :: ms), h, ind => by
    simp only [Json.wf, wfMembers, Bool.and_eq_true] at h
    have h1 := needV_le_print v h.1 (ind + 2)
    have h2 := needMs_le_print ms h.2 (ind + 2)
    simp only [needV, needMs, printJson, List.length_cons, List.length_append,
      pad, List.length_replicate]
    omega

theorem needL_le_print : ∀ (es : List Json), wfElems es = true → ∀ (ind : Nat),
  needL es ≤ (printElemsRest ind es).length
| [], _, ind => by simp [needL, printElemsRest]
| e :: es, h, ind => by
    simp only [wfElems, Bool.and_eq_true] at h
    have h1 := needV_le_print e h.1 ind
    have h2 := needL_le_print es h.2 ind
    simp only [needL, printElemsRest, List.length_cons, List.length_append,
      pad, List.length_replicate]
    omega

theorem needMs_le_print : ∀ (ms : List (String × Json)), wfMembers ms = true → ∀ (ind : Nat),
  needMs ms ≤ (printMembersRest ind ms).length
| [], _, ind => by simp [needMs, printMembersRest]
| (k, v) :: ms, h, ind => by
    simp only [wfMembers, Bool.and_eq_true] at h
    have h1 := needV_le_print v h.1 ind
    have h2 := needMs_le_print ms h.2 ind
    simp only [needMs, printMembersRest, List.length_cons, List.length_append,
      pad, List.length_replicate]
    omega
end

theorem parseVal_null {cs rest : List Char} (fuel : Nat)
    (h : dropWs cs = 'n' :: 'u' :: 'l' :: 'l' :: rest) :
    parseVal (fuel + 1) cs = some (.null, rest) := by
  simp [parseVal, h, List.isPrefixOf]

theorem parseVal_true {cs rest : List Char} (fuel : Nat)
    (h : dropWs cs = 't' :: 'r' :: 'u' :: 'e' :: rest) :
    parseVal (fuel + 1) cs = some (.bool true, rest) := by
  simp [parseVal, h, List.isPrefixOf]

theorem parseVal_false {cs rest : List Char} (fuel : Nat)
    (h : dropWs cs = 'f' :: 'a' :: 'l' :: 's' :: 'e' :: rest) :
    parseVal (fuel + 1) cs = some (.bool false, rest) := by
  simp [parseVal, h, List.isPrefixOf]

theorem parseVal_str {cs body r : List Char} {s : String} (fuel : Nat)
    (h : dropWs cs = '"' :: body)
    (hS : parseStringBody body.length [] body = some (s, r)) :
    parseVal (fuel + 1) cs = some (.str s, r) := by
  simp [parseVal, h, hS]

theorem parseVal_arrNil {cs r1 r2 : List Char} (fuel : Nat)
    (h1 : dropWs cs = '[' :: r1) (h2 : dropWs r1 = ']' :: r2) :
    parseVal (fuel + 1) cs = some (.arr [], r2) := by
  simp [parseVal, h1, h2]

theorem parseVal_arrCons {cs r1 r2 r : List Char} {c2 : Char} {es : List Json} (fuel : Nat)
    (h1 : dropWs cs = '[' :: r1) (h2 : dropWs r1 = c2 :: r2)
    (hc : (c2 == ']') = false) (hE : parseElems fuel r1 = some (es, r)) :
    parseVal (fuel + 1) cs = some (.arr es, r) := by
  simp [parseVal, h1, h2, hc, hE]

theorem parseVal_objNil {cs r1 r2 : List Char} (fuel : Nat)
    (h1 : dropWs cs = lbrace :: r1) (h2 : dropWs r1 = rbrace :: r2) :
    parseVal (fuel + 1) cs = some (.obj [], r2) := by
  have e1 : (lbrace == 'n') = false := by decide
  have e2 : (lbrace == 't') = false := by decide
  have e3 : (lbrace == 'f') = false := by decide
  have e4 : (lbrace == '"') = false := by decide
  have e5 : (lbrace == '[') = false := by decide
  have e6 : (rbrace == rbrace) = true := by decide
  simp [parseVal, h1, h2, e1, e2, e3, e4, e5, e6]

theorem parseVal_objCons {cs r1 r2 r : List Char} {c2 : Char}
    {ms : List (String × Json)} (fuel : Nat)
    (h1 : dropWs cs = lbrace :: r1) (h2 : dropWs r1 = c2 :: r2)
    (hc : (c2 == rbrace) = false) (hM : parseMembers fuel r1 = some (ms, r)) :
    parseVal (fuel + 1) cs = some (.obj ms, r) := by
  have e1 : (lbrace == 'n') = false := by decide
  have e2 : (lbrace == 't') = false := by decide
  have e3 : (lbrace == 'f') = false := by decide
  have e4 : (lbrace == '"') = false := by decide
  have e5 : (lbrace == '[') = false := by decide
  simp [parseVal, h1, h2, hc, hM, e1, e2, e3, e4, e5]

theorem parseVal_num {cs r1 : List Char} {c : Char} (fuel : Nat)
    (h : dropWs cs = c :: r1)
    (e1 : (c == 'n') = false) (e2 : (c == 't') = false) (e3 : (c == 'f') = false)
    (e4 : (c == '"') = false) (e5 : (c == '[') = false) (e6 : (c == lbrace) = false)
    (e7 : (c == '-' || c.isDigit) = true) :
    parseVal (fuel + 1) cs =
      some (.num ((c :: r1).takeWhile numChar).asString,
        (c :: r1).drop ((c :: r1).takeWhile numChar).length) := by
  simp [parseVal, h, e1, e2, e3, e4, e5, e6, e7]

theorem parseElems_last {cs r r2 : List Char} {v : Json} (fuel : Nat)
    (hV : parseVal fuel cs = some (v, r)) (h2 : dropWs r = ']' :: r2) :
    parseElems (fuel + 1) cs = some ([v], r2) := by
  simp [parseElems, hV, h2]

theorem parseElems_cons {cs r r2 r3 : List Char} {v : Json} {vs : List Json} (fuel : Nat)
    (hV : parseVal fuel cs = some (v, r)) (h2 : dropWs r = ',' :: r2)
    (hE : parseElems fuel r2 = some (vs, r3)) :
    parseElems (fuel + 1) cs = some (v :: vs, r3) := by
  simp [parseElems, hV, h2, hE]

theorem parseMembers_last {cs body r1 r2 r3 r4 : List Char} {k : String} {v : Json}
    (fuel : Nat)
    (h0 : dropWs cs = '"' :: body)
    (hK : parseStringBody body.length [] body = some (k, r1))
    (h1 : dropWs r1 = ':' :: r2)
    (hV : parseVal fuel r2 = some (v, r3))
    (h2 : dropWs r3 = rbrace :: r4) :
    parseMembers (fuel + 1) cs = some ([(k, v)], r4) := by
  have e1 : (rbrace == ',') = false := by decide
  have e2 : (rbrace == rbrace) = true := by decide
  simp [parseMembers, h0, hK, h1, hV, h2, e1, e2]

theorem parseMembers_cons {cs body r1 r2 r3 r4 r5 : List Char} {k : String} {v : Json}
    {ms : List (String × Json)} (fuel : Nat)
    (h0 : dropWs cs = '"' :: body)
    (hK : parseStringBody body.length [] body = some (k, r1))
    (h1 : dropWs r1 = ':' :: r2)
    (hV : parseVal fuel r2 = some (v, r3))
    (h2 : dropWs r3 = ',' :: r4)
    (hM : parseMembers fuel r4 = some (ms, r5)) :
    parseMembers (fuel + 1) cs = some ((k, v) :: ms, r5) := by
  simp [parseMembers, h0, hK, h1, hV, h2, hM]

theorem dropWs_nl_pad (n : Nat) {c : Char} (hc : isWsChar c = false) (cs : List Char) :
    dropWs ('\n' :: (pad n ++ c :: cs)) = c :: cs := by
  have e : ('\n' :: (pad n ++ c :: cs)) = ('\n' :: pad n) ++ c :: cs := by simp
  rw [e]
  exact dropWs_resolve (by simp [pad_all_ws, isWsChar]) hc _

theorem nl_pad_ws (n : Nat) : (('\n' :: pad n).all isWsChar) = true := by
  simp [pad_all_ws, isWsChar]

theorem quote_key_parts {pre : List Char} (hpre : pre.all isWsChar = true) (k : String)
    (T : List Char) :
    dropWs (pre ++ (quoteString k ++ T)) =
        '"' :: (k.toList.flatMap escapeChar ++ ('"' :: T)) ∧
      parseStringBody (k.toList.flatMap escapeChar ++ ('"' :: T)).length []
        (k.toList.flatMap escapeChar ++ ('"' :: T)) = some (k, T) := by
  constructor
  · have hq : quoteString k ++ T = '"' :: (k.toList.flatMap escapeChar ++ ('"' :: T)) := by
      simp [quoteString]
    rw [hq]
    exact dropWs_resolve hpre (show isWsChar '"' = false by decide) _
  · have hlen : k.toList.length + 1 ≤ (k.toList.flatMap escapeChar ++ ('"' :: T)).length := by
      have := length_le_flatMap_escape k.toList
      simp only [List.length_append, List.length_cons]
      omega
    have h := parseStringBody_escape k.toList [] T _ hlen
    simpa only [List.reverse_nil, List.nil_append, asString_toList] using h

/-- The printer/parser round trip, by induction on the parser fuel: a
printed value parses back to itself in any whitespace context, and
likewise for printed element and member lists up to their closers. -/
theorem parse_print_aux : ∀ fuel : Nat,
    (∀ (j : Json) (ind : Nat) (pre rest : List Char), j.wf = true → needV j ≤ fuel →
      pre.all isWsChar = true → headNot numChar rest →
      parseVal fuel (pre ++ (printJson ind j ++ rest)) = some (j, rest)) ∧
    (∀ (e : Json) (es : List Json) (ind : Nat) (pre mid rest : List Char),
      (e.wf && wfElems es) = true → needL (e :: es) ≤ fuel →
      pre.all isWsChar = true → mid.all isWsChar = true →
      parseElems fuel (pre ++ (printJson ind e ++ (printElemsRest ind es ++
        (mid ++ (']' :: rest))))) = some (e :: es, rest)) ∧
    (∀ (k : String) (v : Json) (ms : List (String × Json)) (ind : Nat)
        (pre mid rest : List Char),
      (v.wf && wfMembers ms) = true → needMs ((k, v) :: ms) ≤ fuel →
      pre.all isWsChar = true → mid.all isWsChar = true →
      parseMembers fuel (pre ++ (quoteString k ++ (':' :: ' ' :: (printJson ind v ++
        (printMembersRest ind ms ++ (mid ++ (rbrace :: rest))))))) =
        some ((k, v) :: ms, rest)) := by
  intro fuel
  induction fuel with
  | zero =>
      refine ⟨?_, ?_, ?_⟩
      · intro j ind pre rest hwf hneed hpre hrest
        exact absurd hneed (by have := needV_pos j; omega)
      · intro e es ind pre mid rest hwf hneed hpre hmid
        exact absurd hneed (by have := needL_pos e es; omega)
      · intro k v ms ind pre mid rest hwf hneed hpre hmid
        exact absurd hneed (by have := needMs_pos (k, v) ms; omega)
  | succ fuel IH =>
      obtain ⟨ihV, ihL, ihM⟩ := IH
      refine ⟨?_, ?_, ?_⟩
      · -- one value
        intro j ind pre rest hwf hneed hpre hrest
        cases j with
        | null =>
            have hp : printJson ind Json.null = ['n', 'u', 'l', 'l'] := by simp [printJson, nullChars]
            rw [hp]
            simp only [List.cons_append, List.nil_append]
            exact parseVal_null fuel (dropWs_resolve hpre (show isWsChar 'n' = false by decide) _)
        | bool b =>
            cases b with
            | true =>
                have hp : printJson ind (Json.bool true) = ['t', 'r', 'u', 'e'] := by
                  simp [printJson, trueChars]
                rw [hp]
                simp only [List.cons_append, List.nil_append]
                exact parseVal_true fuel
                  (dropWs_resolve hpre (show isWsChar 't' = false by decide) _)
            | false =>
                have hp : printJson ind (Json.bool false) = ['f', 'a', 'l', 's', 'e'] := by
                  simp [printJson, falseChars]
                rw [hp]
                simp only [List.cons_append, List.nil_append]
                exact parseVal_false fuel
                  (dropWs_resolve hpre (show isWsChar 'f' = false by decide) _)
        | num lit =>
            have hwf' : numLitOk lit = true := by simpa [Json.wf] using hwf
            cases hl : lit.toList with
            | nil =>
                simp [numLitOk] at hwf'
                exact absurd hl hwf'.1.1
            | cons c t =>
                simp only [numLitOk, hl, Bool.and_eq_true] at hwf'
                have hnum : numStartChar c = true := by simpa using hwf'.2
                have hall : (c :: t).all numChar = true := hwf'.1.2
                obtain ⟨hws, f1, f2, f3, f4, f5, f6, f7, _, _⟩ := numStart_facts hnum
                have hp : printJson ind (Json.num lit) = c :: t := by
                  simp only [printJson]; exact hl
                rw [hp]
                simp only [List.cons_append]
                rw [parseVal_num fuel (dropWs_resolve hpre hws _) f1 f2 f3 f4 f5 f6 f7]
                have htw : (c :: (t ++ rest)).takeWhile numChar = c :: t := by
                  have h := takeWhile_all_append rest hall hrest
                  simpa [List.cons_append] using h
                rw [htw]
                have hstr : (c :: t).asString = lit := by rw [← hl, asString_toList]
                have hdrop : (c :: (t ++ rest)).drop (c :: t).length = rest := by
                  have h := List.drop_left (c :: t) rest
                  simpa [List.cons_append] using h
                rw [hstr, hdrop]
        | str s =>
            have hp : printJson ind (Json.str s) =
                '"' :: (s.toList.flatMap escapeChar ++ ['"']) := by
              simp [printJson, quoteString]
            rw [hp]
            simp only [List.cons_append, List.append_assoc, List.nil_append]
            have hlen : s.toList.length + 1 ≤
                (s.toList.flatMap escapeChar ++ ('"' :: rest)).length := by
              have := length_le_flatMap_escape s.toList
              simp only [List.length_append, List.length_cons]
              omega
            have hS := parseStringBody_escape s.toList [] rest _ hlen
            exact parseVal_str fuel
              (dropWs_resolve hpre (show isWsChar '"' = false by decide) _)
              (by simpa only [List.reverse_nil, List.nil_append, asString_toList] using hS)
        | arr es =>
            cases es with
            | nil =>
                have hp : printJson ind (Json.arr []) = ['[', ']'] := by simp [printJson]
                rw [hp]
                simp only [List.cons_append, List.nil_append]
                exact parseVal_arrNil fuel
                  (dropWs_resolve hpre (show isWsChar '[' = false by decide) _)
                  (dropWs_cons_of_not (show isWsChar ']' = false by decide) _)
            | cons e es =>
                obtain ⟨hwf1, hwf2⟩ : e.wf = true ∧ wfElems es = true := by
                  simpa [Json.wf, wfElems] using hwf
                have hneed' : needL (e :: es) ≤ fuel := by
                  simp only [needV] at hneed; omega
                have hp : printJson ind (Json.arr (e :: es)) =
                    '[' :: '\n' :: (pad (ind + 2) ++ (printJson (ind + 2) e ++
                      (printElemsRest (ind + 2) es ++ ('\n' :: (pad ind ++ [']']))))) := by
                  simp [printJson]
                rw [hp]
                simp only [List.cons_append, List.append_assoc, List.nil_append]
                obtain ⟨c0, cs0, hc0eq, hc0ws, hc0br, _⟩ := printJson_head e hwf1 (ind + 2)
                have h2 : dropWs ('\n' :: (pad (ind + 2) ++ (printJson (ind + 2) e ++
                    (printElemsRest (ind + 2) es ++ ('\n' :: (pad ind ++ (']' :: rest))))))) =
                    c0 :: (cs0 ++ (printElemsRest (ind + 2) es ++
                      ('\n' :: (pad ind ++ (']' :: rest))))) := by
                  rw [hc0eq, List.cons_append]
                  exact dropWs_nl_pad _ hc0ws _
                have hE : parseElems fuel ('\n' :: (pad (ind + 2) ++ (printJson (ind + 2) e ++
                    (printElemsRest (ind + 2) es ++ ('\n' :: (pad ind ++ (']' :: rest))))))) =
                    some (e :: es, rest) := by
                  have h := ihL e es (ind + 2) ('\n' :: pad (ind + 2)) ('\n' :: pad ind) rest
                    (by simp [hwf1, hwf2]) hneed' (nl_pad_ws _) (nl_pad_ws _)
                  simpa only [List.cons_append, List.append_assoc] using h
                exact parseVal_arrCons fuel
                  (dropWs_resolve hpre (show isWsChar '[' = false by decide) _) h2 hc0br hE
        | obj ms =>
            cases ms with
            | nil =>
                have hp : printJson ind (Json.obj []) = [lbrace, rbrace] := by simp [printJson]
                rw [hp]
                simp only [List.cons_append, List.nil_append]
                exact parseVal_objNil fuel
                  (dropWs_resolve hpre (show isWsChar lbrace = false by decide) _)
                  (dropWs_cons_of_not (show isWsChar rbrace = false by decide) _)
            | cons m ms =>
                obtain ⟨k, v⟩ := m
                obtain ⟨hwf1, hwf2⟩ : v.wf = true ∧ wfMembers ms = true := by
                  simpa [Json.wf, wfMembers] using hwf
                have hneed' : needMs ((k, v) :: ms) ≤ fuel := by
                  simp only [needV] at hneed; omega
                have hp : printJson ind (Json.obj ((k, v) :: ms)) =
                    lbrace :: '\n' :: (pad (ind + 2) ++ (quoteString k ++ (':' :: ' ' ::
                      (printJson (ind + 2) v ++ (printMembersRest (ind + 2) ms ++
                        ('\n' :: (pad ind ++ [rbrace]))))))) := by
                  simp [printJson]
                rw [hp]
                simp only [List.cons_append, List.append_assoc, List.nil_append]
                have h2 : dropWs ('\n' :: (pad (ind + 2) ++ (quoteString k ++ (':' :: ' ' ::
                    (printJson (ind + 2) v ++ (printMembersRest (ind + 2) ms ++
                      ('\n' :: (pad ind ++ (rbrace :: rest))))))))) =
                    '"' :: (k.toList.flatMap escapeChar ++ ('"' :: (':' :: ' ' ::
                      (printJson (ind + 2) v ++ (printMembersRest (ind + 2) ms ++
                        ('\n' :: (pad ind ++ (rbrace :: rest)))))))) := by
                  have e : ('\n' :: (pad (ind + 2) ++ (quoteString k ++ (':' :: ' ' ::
                      (printJson (ind + 2) v ++ (printMembersRest (ind + 2) ms ++
                        ('\n' :: (pad ind ++ (rbrace :: rest))))))))) =
                      ('\n' :: pad (ind + 2)) ++ (quoteString k ++ (':' :: ' ' ::
                      (printJson (ind + 2) v ++ (printMembersRest (ind + 2) ms ++
                        ('\n' :: (pad ind ++ (rbrace :: rest))))))) := by
                    simp
                  rw [e]
                  exact (quote_key_parts (nl_pad_ws _) k _).1
                have hM : parseMembers fuel ('\n' :: (pad (ind + 2) ++ (quoteString k ++
                    (':' :: ' ' :: (printJson (ind + 2) v ++ (printMembersRest (ind + 2) ms ++
                      ('\n' :: (pad ind ++ (rbrace :: rest))))))))) =
                    some ((k, v) :: ms, rest) := by
                  have h := ihM k v ms (ind + 2) ('\n' :: pad (ind + 2)) ('\n' :: pad ind) rest
                    (by simp [hwf1, hwf2]) hneed' (nl_pad_ws _) (nl_pad_ws _)
                  simpa only [List.cons_append, List.append_assoc] using h
                exact parseVal_objCons fuel
                  (dropWs_resolve hpre (show isWsChar lbrace = false by decide) _) h2
                  (show ('"' == rbrace) = false by decide) hM
      · -- one or more elements plus closer
        intro e es ind pre mid rest hwf hneed hpre hmid
        obtain ⟨hwf1, hwf2⟩ : e.wf = true ∧ wfElems es = true := by simpa using hwf
        cases es with
        | nil =>
            have hneedV : needV e ≤ fuel := by simp only [needL] at hneed; omega
            have hno : headNot numChar (mid ++ (']' :: rest)) :=
              headNot_ws_append hmid (by decide) rest
            have hV := ihV e ind pre (mid ++ (']' :: rest)) hwf1 hneedV hpre hno
            simp only [printElemsRest, List.nil_append]
            exact parseElems_last fuel hV
              (dropWs_resolve hmid (show isWsChar ']' = false by decide) rest)
        | cons e2 es' =>
            have hneedV : needV e ≤ fuel := by simp only [needL] at hneed; omega
            have hneedL2 : needL (e2 :: es') ≤ fuel := by
              simp only [needL] at hneed ⊢; omega
            have hno : headNot numChar (printElemsRest ind (e2 :: es') ++
                (mid ++ (']' :: rest))) := by
              simp only [printElemsRest, List.cons_append, headNot]
              decide
            have hV := ihV e ind pre
              (printElemsRest ind (e2 :: es') ++ (mid ++ (']' :: rest))) hwf1 hneedV hpre hno
            simp only [printElemsRest, List.cons_append, List.append_assoc] at hV ⊢
            have hE2 : parseElems fuel ('\n' :: (pad ind ++ (printJson ind e2 ++
                (printElemsRest ind es' ++ (mid ++ (']' :: rest)))))) =
                some (e2 :: es', rest) := by
              have h := ihL e2 es' ind ('\n' :: pad ind) mid rest
                (by simpa [wfElems] using hwf2) hneedL2 (nl_pad_ws _) hmid
              simpa only [List.cons_append, List.append_assoc] using h
            exact parseElems_cons fuel hV
              (dropWs_cons_of_not (show isWsChar ',' = false by decide) _) hE2
      · -- one or more members plus closer
        intro k v ms ind pre mid rest hwf hneed hpre hmid
        obtain ⟨hwf1, hwf2⟩ : v.wf = true ∧ wfMembers ms = true := by simpa using hwf
        cases ms with
        | nil =>
            have hneedV : needV v ≤ fuel := by simp only [needMs] at hneed; omega
            simp only [printMembersRest, List.nil_append]
            obtain ⟨h0, hK⟩ := quote_key_parts hpre k
              (':' :: ' ' :: (printJson ind v ++ (mid ++ (rbrace :: rest))))
            have h1 : dropWs (':' :: ' ' :: (printJson ind v ++ (mid ++ (rbrace :: rest)))) =
                ':' :: (' ' :: (printJson ind v ++ (mid ++ (rbrace :: rest)))) :=
              dropWs_cons_of_not (show isWsChar ':' = false by decide) _
            have hno : headNot numChar (mid ++ (rbrace :: rest)) :=
              headNot_ws_append hmid (by decide) rest
            have hV : parseVal fuel (' ' :: (printJson ind v ++ (mid ++ (rbrace :: rest)))) =
                some (v, mid ++ (rbrace :: rest)) := by
              have h := ihV v ind [' '] (mid ++ (rbrace :: rest)) hwf1 hneedV (by decide) hno
              simpa only [List.cons_append, List.nil_append] using h
            exact parseMembers_last fuel h0 hK h1 hV
              (dropWs_resolve hmid (show isWsChar rbrace = false by decide) rest)
        | cons m ms' =>
            obtain ⟨k2, v2⟩ := m
            have hneedV : needV v ≤ fuel := by simp only [needMs] at hneed; omega
            have hneedM2 : needMs ((k2, v2) :: ms') ≤ fuel := by
              simp only [needMs] at hneed ⊢; omega
            simp only [printMembersRest, List.cons_append, List.append_assoc]
            obtain ⟨h0, hK⟩ := quote_key_parts hpre k
              (':' :: ' ' :: (printJson ind v ++ (',' :: '\n' :: (pad ind ++ (quoteString k2 ++
                (':' :: ' ' :: (printJson ind v2 ++ (printMembersRest ind ms' ++
                  (mid ++ (rbrace :: rest))))))))))
            have h1 : dropWs (':' :: ' ' :: (printJson ind v ++ (',' :: '\n' ::
                (pad ind ++ (quoteString k2 ++ (':' :: ' ' :: (printJson ind v2 ++
                  (printMembersRest ind ms' ++ (mid ++ (rbrace :: rest)))))))))) =
                ':' :: (' ' :: (printJson ind v ++ (',' :: '\n' :: (pad ind ++
                  (quoteString k2 ++ (':' :: ' ' :: (printJson ind v2 ++
                    (printMembersRest ind ms' ++ (mid ++ (rbrace :: rest)))))))))) :=
              dropWs_cons_of_not (show isWsChar ':' = false by decide) _
            have hno : headNot numChar (',' :: '\n' :: (pad ind ++ (quoteString k2 ++
                (':' :: ' ' :: (printJson ind v2 ++ (printMembersRest ind ms' ++
                  (mid ++ (rbrace :: rest)))))))) := by
              simp only [headNot]
              decide
            have hV : parseVal fuel (' ' :: (printJson ind v ++ (',' :: '\n' ::
                (pad ind ++ (quoteString k2 ++ (':' :: ' ' :: (printJson ind v2 ++
                  (printMembersRest ind ms' ++ (mid ++ (rbrace :: rest)))))))))) =
                some (v, ',' :: '\n' :: (pad ind ++ (quoteString k2 ++ (':' :: ' ' ::
                  (printJson ind v2 ++ (printMembersRest ind ms' ++
                    (mid ++ (rbrace :: rest)))))))) := by
              have h := ihV v ind [' ']
                (',' :: '\n' :: (pad ind ++ (quoteString k2 ++ (':' :: ' ' ::
                  (printJson ind v2 ++ (printMembersRest ind ms' ++
                    (mid ++ (rbrace :: rest))))))))
                hwf1 hneedV (by decide) hno
              simpa only [List.cons_append, List.nil_append] using h
            have hM2 : parseMembers fuel ('\n' :: (pad ind ++ (quoteString k2 ++
                (':' :: ' ' :: (printJson ind v2 ++ (printMembersRest ind ms' ++
                  (mid ++ (rbrace :: rest)))))))) = some ((k2, v2) :: ms', rest) := by
              have h := ihM k2 v2 ms' ind ('\n' :: pad ind) mid rest
                (by simpa [wfMembers] using hwf2) hneedM2 (nl_pad_ws _) hmid
              simpa only [List.cons_append, List.append_assoc] using h
            exact parseMembers_cons fuel h0 hK h1 hV
              (dropWs_cons_of_not (show isWsChar ',' = false by decide) _) hM2

theorem jsCheck_score_ge (cond : Bool) (iss rcs : List String) {d : Int} (hd : 0 ≤ d)
    (acc : Acc3) : acc.2.2 ≤ (jsCheck cond iss rcs d acc).2.2 := by
  rw [jsCheck_score]; split <;> omega

theorem jsCheck_score_le (cond : Bool) (iss rcs : List String) {d : Int} (hd : d ≤ 0)
    (acc : Acc3) : (jsCheck cond iss rcs d acc).2.2 ≤ acc.2.2 := by
  rw [jsCheck_score]; split <;> omega

theorem jsCheckElse_score_ge (cond : Bool) (iss rcs : List String) {d : Int} (hd : 0 ≤ d)
    (eis ers : List String) {ed : Int} (hed : 0 ≤ ed) (acc : Acc3) :
    acc.2.2 ≤ (jsCheckElse cond iss rcs d eis ers ed acc).2.2 := by
  rw [jsCheckElse_score]; split <;> omega

/-- If no key of the raw map lowercases to `q`, the normalized header
object has no entry at `q`. -/
theorem normalizeHeaders_eq_none_of_not_mem (m : HeaderMap) (q : String)
    (h : ∀ p ∈ m, jsToLower p.1 ≠ q) : normalizeHeaders m q = none := by
  induction m with
  | nil => rfl
  | cons p rest ih =>
      have hr : normalizeHeaders rest q = none :=
        ih fun x hx => h x (List.mem_cons_of_mem _ hx)
      have hp : jsToLower p.1 ≠ q := h p (List.mem_cons_self _ _)
      simp only [normalizeHeaders, List.map_cons, jsObjLookup] at hr ⊢
      rw [hr, if_neg hp]

/-- The keyword-stuffing issue string is never produced by the five
structural path checks. -/
theorem stuffing_issue_not_in_core (pathname : String) :
    "URL appears to contain repeated keywords" ∉ (pathCoreAcc pathname).1 := by
  unfold pathCoreAcc
  simp [jsCheck_mem]

/-- The keyword-stuffing issue string is never produced by the six checks
preceding the keyword-stuffing check. -/
theorem stuffing_issue_not_in_pre (u : ParsedUrl) :
    "URL appears to contain repeated keywords" ∉ (pathChecksPreStuffing u).1 := by
  unfold pathChecksPreStuffing
  split
  · simp only [jsCheck_mem]
    rintro (hmem | ⟨_, hmem⟩)
    · exact stuffing_issue_not_in_core _ hmem
    · simp at hmem
  · exact stuffing_issue_not_in_core _

theorem cacheCCBase_score_nonneg (ccv : String) : 0 ≤ (cacheCCBase ccv).2.2 := by
  unfold cacheCCBase
  repeat' split
  all_goals simp

theorem cacheCCAcc_score_nonneg (h : HLookup) : 0 ≤ (cacheCCAcc h).2.2 := by
  unfold cacheCCAcc
  split
  · simp
  · simp only []
    split
    · exact le_trans (cacheCCBase_score_nonneg _) (jsCheck_score_ge _ _ _ (by omega) _)
    · exact le_trans (cacheCCBase_score_nonneg _) (jsCheck_score_ge _ _ _ (by omega) _)

/-- The accumulator of `analyzeCacheHeaders` has a non-negative score. -/
theorem cacheAcc_score_nonneg (h : HLookup) : 0 ≤ (cacheAcc h).2.2 := by
  unfold cacheAcc
  refine le_trans ?_ (jsCheckElse_score_ge _ _ _ (by omega) _ _ (by omega) _)
  refine le_trans ?_ (jsCheckElse_score_ge _ _ _ (by omega) _ _ (by omega) _)
  exact cacheCCAcc_score_nonneg h

theorem securityAcc_score_nonneg (h : HLookup) : 0 ≤ (securityAcc h).2.2 := by
  unfold securityAcc
  refine le_trans ?_ (jsCheckElse_score_ge _ _ _ (by omega) _ _ (by omega) _)
  have key : ∀ (l : List (String × Bool × String × Int)) (acc : Acc3),
      (∀ e ∈ l, 0 ≤ e.2.2.2) → 0 ≤ acc.2.2 →
      0 ≤ (l.foldl (fun acc entry =>
        jsCheckElse entry.2.1 [] [] entry.2.2.2
          ["Missing " ++ entry.1 ++ " header"] [entry.2.2.1] 0 acc) acc).2.2 := by
    intro l
    induction l with
    | nil => intro acc _ ha; simpa using ha
    | cons e rest ih =>
        intro acc hl ha
        refine ih _ (fun x hx => hl x (List.mem_cons_of_mem _ hx)) ?_
        exact le_trans ha (jsCheckElse_score_ge _ _ _
          (hl e (List.mem_cons_self _ _)) _ _ (by omega) _)
  refine key _ _ ?_ (by simp)
  intro e he
  fin_cases he <;> simp

theorem contentTypeAcc_score_nonneg (h : HLookup) : 0 ≤ (contentTypeAcc h).2.2 := by
  unfold contentTypeAcc
  simp only []
  split_ifs <;> simp

theorem contentAcc_score_nonneg (h : HLookup) : 0 ≤ (contentAcc h).2.2 := by
  unfold contentAcc
  have ha : 0 ≤ (jsCheckElse ((h "content-language").isNone)
      ["No Content-Language header found"]
      ["Add Content-Language header to specify the language of your content"] 0
      [] [] 20 (contentTypeAcc h)).2.2 :=
    le_trans (contentTypeAcc_score_nonneg h)
      (jsCheckElse_score_ge _ _ _ (by omega) _ _ (by omega) _)
  split
  · exact le_trans ha (jsCheck_score_ge _ _ _ (by omega) _)
  · refine le_trans ?_ (jsCheck_score_ge _ _ _ (by omega) _)
    exact le_trans ha (jsCheck_score_ge _ _ _ (by omega) _)

theorem compressionEncAcc_score_nonneg (h : HLookup) : 0 ≤ (compressionEncAcc h).2.2 := by
  unfold compressionEncAcc
  simp only []
  split_ifs <;> simp

theorem compressionAcc_score_nonneg (h : HLookup) : 0 ≤ (compressionAcc h).2.2 := by
  unfold compressionAcc
  have ha := compressionEncAcc_score_nonneg h
  split
  · exact le_trans ha (jsCheck_score_ge _ _ _ (by omega) _)
  · exact le_trans ha (jsCheckElse_score_ge _ _ _ (by omega) _ _ (by omega) _)

/-- Each of the four headers sub-scores lies in [0,100]. -/
theorem headersSubScores_bounds (h : HLookup) :
    (0 ≤ (analyzeCacheHeaders h).score ∧ (analyzeCacheHeaders h).score ≤ 100) ∧
    (0 ≤ (analyzeSecurityHeaders h).score ∧ (analyzeSecurityHeaders h).score ≤ 100) ∧
    (0 ≤ (analyzeContentHeaders h).score ∧ (analyzeContentHeaders h).score ≤ 100) ∧
    (0 ≤ (analyzeCompression h).score ∧ (analyzeCompression h).score ≤ 100) := by
  have h1 := cacheAcc_score_nonneg h
  have h2 := securityAcc_score_nonneg h
  have h3 := contentAcc_score_nonneg h
  have h4 := compressionAcc_score_nonneg h
  simp only [analyzeCacheHeaders, analyzeSecurityHeaders, analyzeContentHeaders,
    analyzeCompression, forceScore]
  constructor
  · split <;> omega
  constructor
  · split <;> omega
  constructor
  · split <;> omega
  · omega

/-- Each of the upper-bounded URL accumulators stays at or below 100. -/
theorem pathCoreAcc_score_le (pathname : String) : (pathCoreAcc pathname).2.2 ≤ 100 := by
  unfold pathCoreAcc
  refine le_trans (jsCheck_score_le _ _ _ (by omega) _) ?_
  refine le_trans (jsCheck_score_le _ _ _ (by omega) _) ?_
  refine le_trans (jsCheck_score_le _ _ _ (by omega) _) ?_
  refine le_trans (jsCheck_score_le _ _ _ (by omega) _) ?_
  exact le_trans (jsCheck_score_le _ _ _ (by omega) _) (by simp)

theorem pathChecksPreStuffing_score_le (u : ParsedUrl) :
    (pathChecksPreStuffing u).2.2 ≤ 100 := by
  unfold pathChecksPreStuffing
  split
  · exact le_trans (jsCheck_score_le _ _ _ (by omega) _) (pathCoreAcc_score_le _)
  · exact pathCoreAcc_score_le _

theorem pathAcc_score_le (u : ParsedUrl) : (pathAcc u).2.2 ≤ 100 := by
  unfold pathAcc
  exact le_trans (jsCheck_score_le _ _ _ (by omega) _) (pathChecksPreStuffing_score_le u)

theorem domainAcc_score_le (u : ParsedUrl) : (domainAcc u).2.2 ≤ 100 := by
  unfold domainAcc
  refine le_trans (jsCheck_score_le _ _ _ (by omega) _) ?_
  refine le_trans (jsCheck_score_le _ _ _ (by omega) _) ?_
  refine le_trans (jsCheck_score_le _ _ _ (by omega) _) ?_
  refine le_trans (jsCheck_score_le _ _ _ (by omega) _) ?_
  exact le_trans (jsCheck_score_le _ _ _ (by omega) _) (by simp)

theorem queryAcc_score_le (u : ParsedUrl) : (queryAcc u).2.2 ≤ 100 := by
  unfold queryAcc
  simp only []
  split
  · refine le_trans (jsCheck_score_le _ _ _ (by omega) _) ?_
    refine le_trans (jsCheck_score_le _ _ _ (by omega) _) ?_
    rw [jsCheck_score]
    split
    · rename_i hgt
      simp only [decide_eq_true_eq] at hgt
      have h1 : (1 : Int) ≤ min 5 ((u.params.length : Int) - 3) := by omega
      simp only []
      omega
    · simp
  · simp

theorem crawlAcc_score_le (u : ParsedUrl) (pageUrls : List (Option ParsedUrl)) :
    (crawlAcc u pageUrls).2.2 ≤ 100 := by
  unfold crawlAcc
  refine le_trans (jsCheck_score_le _ _ _ (by omega) _) ?_
  refine le_trans (jsCheck_score_le _ _ _ (by omega) _) ?_
  exact le_trans (jsCheck_score_le _ _ _ (by omega) _) (by simp)

/-- Each of the five URL sub-scores lies in [0,100]. -/
theorem urlSubScores_bounds (u : ParsedUrl) (pageUrls : List (Option ParsedUrl)) :
    (0 ≤ (analyzeProtocol u).score ∧ (analyzeProtocol u).score ≤ 100) ∧
    (0 ≤ (analyzeDomain u).score ∧ (analyzeDomain u).score ≤ 100) ∧
    (0 ≤ (analyzePath u).score ∧ (analyzePath u).score ≤ 100) ∧
    (0 ≤ (analyzeQueryParameters u).score ∧ (analyzeQueryParameters u).score ≤ 100) ∧
    (0 ≤ (analyzeCrawlPath u pageUrls).score ∧ (analyzeCrawlPath u pageUrls).score ≤ 100) := by
  refine ⟨?_, ?_, ?_, ?_, ?_⟩
  · unfold analyzeProtocol; split_ifs <;> simp
  · have := domainAcc_score_le u
    simp only [analyzeDomain]; omega
  · have := pathAcc_score_le u
    simp only [analyzePath]; omega
  · have := queryAcc_score_le u
    simp only [analyzeQueryParameters]; omega
  · have := crawlAcc_score_le u pageUrls
    unfold analyzeCrawlPath
    split
    · simp
    · simp only []; omega

theorem clampScore_score_bounds (acc : Acc3) :
    0 ≤ (clampScore acc).score ∧ (clampScore acc).score ≤ 100 := by
  simp only [clampScore]; omega

/-- `Math.round(sum/4)` stays within [0,100] when `sum` does so scaled. -/
theorem jsRoundDiv4_bounds {sum : Int} (h0 : 0 ≤ sum) (h1 : sum ≤ 400) :
    0 ≤ jsRoundDiv sum 4 ∧ jsRoundDiv sum 4 ≤ 100 := by
  unfold jsRoundDiv
  omega

/-- `Math.round(sum/5)` stays within [0,100] when `sum` does so scaled. -/
theorem jsRoundDiv5_bounds {sum : Int} (h0 : 0 ≤ sum) (h1 : sum ≤ 500) :
    0 ≤ jsRoundDiv sum 5 ∧ jsRoundDiv sum 5 ≤ 100 := by
  unfold jsRoundDiv
  omega

/-! ### Claims -/

/-- Claim C2: the top-level score of each facet analyzer — `analyzeUrl` on
any (possibly unparseable) URL and sibling list, `analyzeHeaders` on any
raw header map, `analyzeSocialMedia` on any document and URL — is an
integer in the closed interval [0,100]. -/
theorem c2_facet_scores_in_range :
    (∀ (url : Option ParsedUrl) (pageUrls : List (Option ParsedUrl)),
      0 ≤ (analyzeUrl url pageUrls).score ∧ (analyzeUrl url pageUrls).score ≤ 100) ∧
    (∀ m : HeaderMap,
      0 ≤ (analyzeHeaders m).score ∧ (analyzeHeaders m).score ≤ 100) ∧
    (∀ (urlOk : String → Bool) (doc : Option SocialDoc) (url : String),
      0 ≤ (analyzeSocialMedia urlOk doc url).score ∧
        (analyzeSocialMedia urlOk doc url).score ≤ 100) := by
  refine ⟨?_, ?_, ?_⟩
  · rintro (_ | u) pageUrls
    · exact ⟨le_refl _, show (0 : Int) ≤ 100 by norm_num⟩
    · obtain ⟨hp, hd, hpa, hq, hc⟩ := urlSubScores_bounds u pageUrls
      simp only [analyzeUrl, UrlReport.score]
      exact jsRoundDiv5_bounds (by omega) (by omega)
  · intro m
    unfold analyzeHeaders
    split
    · exact ⟨le_refl _, show (0 : Int) ≤ 100 by norm_num⟩
    · obtain ⟨hc, hs, hct, hcp⟩ := headersSubScores_bounds (normalizeHeaders m)
      simp only [HeadersReport.score]
      exact jsRoundDiv4_bounds (by omega) (by omega)
  · rintro urlOk (_ | d) url
    · exact ⟨le_refl _, show (0 : Int) ≤ 100 by norm_num⟩
    · have h1 := clampScore_score_bounds (ogAcc urlOk d)
      have h2 := clampScore_score_bounds (twitterAcc urlOk d)
      have h3 := clampScore_score_bounds (linksAcc d)
      have h4 := clampScore_score_bounds (sharingAcc d)
      simp only [analyzeSocialMedia, SocialReport.score, analyzeOpenGraph,
        analyzeTwitterCard, analyzeSocialLinks, analyzeSocialSharing]
      exact jsRoundDiv4_bounds (by omega) (by omega)

/-- Claim C9: `getRatingForStructure` never returns "Excellent": its
condition (average length < 60, paragraph count > 5, lists > 1) is
subsumed by the earlier-checked "Good" condition (average length < 80,
paragraph count > 3, lists > 0), so only four of the five qualitative
rating levels are reachable. -/
theorem c9_getRatingForStructure_never_excellent
    (avg : ℚ) (long para lists : Int) :
    getRatingForStructure avg long para lists ≠ "Excellent" := by
  unfold getRatingForStructure
  split_ifs with h1 h2 h3 h4
  · decide
  · decide
  · decide
  · exact absurd ⟨by linarith [h4.1], by omega, by omega⟩ h3
  · decide

/-- Claim C6: validating the JSON-LD block with `@context` = schema.org and
`@type` = Product and no further properties produces exactly the four
missing-property issues (name, description, image, offers) and
`valid = false`. -/
theorem c6_validateJsonLd_bare_product :
    validateJsonLd (some ⟨some "https://schema.org", some "Product",
        none, none, none, none, none, none, none⟩) =
      ⟨false,
       ["Product schema missing required property: name",
        "Product schema missing recommended property: description",
        "Product schema missing recommended property: image",
        "Product schema missing recommended property: offers"]⟩ := by
  rfl

/-- Claim C7: for the text "seo seo seo test" with target keyword "seo",
`analyzeKeywords` reports a whole-word count of 3 and a density of
"75.00%" (3 of 4 words). -/
theorem c7_analyzeKeywords_seo :
    analyzeKeywords "seo seo seo test" ["seo"] =
      ⟨4, some [⟨"seo", 3, "75.00%", true⟩]⟩ := by
  rfl

/-- Claim C4: a non-empty header map with none of the keys `cache-control`,
`etag`, `last-modified` (after case normalization) gets cache score 0 and
exactly three cache issues. -/
theorem c4_cache_missing_validators (m : HeaderMap) (hne : m ≠ [])
    (hmiss : ∀ p ∈ m, jsToLower p.1 ≠ "cache-control" ∧
      jsToLower p.1 ≠ "etag" ∧ jsToLower p.1 ≠ "last-modified") :
    ∃ r : HeadersFullResult, analyzeHeaders m = .analyzed r ∧
      r.cacheAnalysis.score = 0 ∧ r.cacheAnalysis.issues.length = 3 := by
  have h1 : normalizeHeaders m "cache-control" = none :=
    normalizeHeaders_eq_none_of_not_mem m _ fun p hp => (hmiss p hp).1
  have h2 : normalizeHeaders m "etag" = none :=
    normalizeHeaders_eq_none_of_not_mem m _ fun p hp => (hmiss p hp).2.1
  have h3 : normalizeHeaders m "last-modified" = none :=
    normalizeHeaders_eq_none_of_not_mem m _ fun p hp => (hmiss p hp).2.2
  have hacc : cacheAcc (normalizeHeaders m) =
      (["No Cache-Control header found", "No ETag header found",
        "No Last-Modified header found"],
       ["Add a Cache-Control header to improve resource caching",
        "Add ETag header to enable conditional requests and save bandwidth",
        "Add Last-Modified header to enable conditional requests"], 0) := by
    simp [cacheAcc, cacheCCAcc, h1, h2, h3, jsCheckElse]
  have hm : ¬ m.length = 0 := by simpa [List.length_eq_zero] using hne
  unfold analyzeHeaders
  rw [if_neg hm]
  exact ⟨_, rfl, by simp [analyzeCacheHeaders, hacc, forceScore],
    by simp [analyzeCacheHeaders, hacc]⟩

/-- Witness for C4 at the concrete map `[("Content-Type", "text/html")]`. -/
theorem c4_cache_missing_validators_witness :
    ∃ r : HeadersFullResult,
      analyzeHeaders [("Content-Type", "text/html")] = .analyzed r ∧
        r.cacheAnalysis.score = 0 ∧ r.cacheAnalysis.issues.length = 3 :=
  c4_cache_missing_validators _ (by decide) (by decide)

/-- Claim C3: whenever the cache, security or content sub-analyzer produces
zero issues its score is forced to exactly 100, while the compression
sub-analyzer is exempt: the normalized map with deflate encoding and an
Accept-Encoding vary header produces zero compression issues yet a score
(90) that is not 100. -/
theorem c3_zero_issue_forcing_asymmetry (h : HLookup) :
    ((analyzeCacheHeaders h).issues = [] → (analyzeCacheHeaders h).score = 100) ∧
    ((analyzeSecurityHeaders h).issues = [] → (analyzeSecurityHeaders h).score = 100) ∧
    ((analyzeContentHeaders h).issues = [] → (analyzeContentHeaders h).score = 100) ∧
    ((analyzeCompression (normalizeHeaders
        [("content-encoding", "deflate"), ("vary", "Accept-Encoding")])).issues = [] ∧
      (analyzeCompression (normalizeHeaders
        [("content-encoding", "deflate"), ("vary", "Accept-Encoding")])).score ≠ 100) := by
  refine ⟨?_, ?_, ?_, by decide, by decide⟩
  · intro hiss
    simp only [analyzeCacheHeaders] at hiss ⊢
    simp [forceScore, hiss]
  · intro hiss
    simp only [analyzeSecurityHeaders] at hiss ⊢
    simp [forceScore, hiss]
  · intro hiss
    simp only [analyzeContentHeaders] at hiss ⊢
    simp [forceScore, hiss]

/-- Witness for C3: a fully cache-correct header set scores exactly 100. -/
theorem c3_zero_issue_forcing_asymmetry_witness :
    (analyzeCacheHeaders (normalizeHeaders
      [("cache-control", "public, max-age=86400"), ("etag", "W"),
       ("last-modified", "today")])).score = 100 :=
  (c3_zero_issue_forcing_asymmetry (normalizeHeaders
      [("cache-control", "public, max-age=86400"), ("etag", "W"),
       ("last-modified", "today")])).1 (by decide)

/-- Claim C5 counterexample: in the path "/a-a-a" the word "a" occurs three
times across segment words, yet no keyword-stuffing deduction is made —
the score stays 100 and the stuffing issue is absent — because the code
deducts only when more than one distinct word repeats. -/
theorem c5_counterexample :
    (pathWords "/a-a-a").count ['a'] = 3 ∧
    (analyzePath ⟨"https:", "example.com", "/a-a-a", "", []⟩).score = 100 ∧
    "URL appears to contain repeated keywords" ∉
      (analyzePath ⟨"https:", "example.com", "/a-a-a", "", []⟩).issues := by
  exact ⟨by decide, by decide, by decide⟩

/-- Claim C5 (amended): `analyzePath` subtracts 15 points (before flooring
at 0) iff more than one distinct path-segment word repeats; with at most
one distinct repeated word, no keyword-stuffing deduction or issue is
produced. -/
theorem c5_amended_keyword_stuffing (u : ParsedUrl) :
    (analyzePath u).score =
      max 0 ((pathChecksPreStuffing u).2.2 -
        (if (repeatedWords u.pathname).length > 1 then 15 else 0)) ∧
    ("URL appears to contain repeated keywords" ∈ (analyzePath u).issues ↔
      (repeatedWords u.pathname).length > 1) := by
  constructor
  · simp only [analyzePath, pathAcc, jsCheck_score]
    split_ifs <;> simp_all <;> omega
  · simp only [analyzePath, pathAcc, jsCheck_mem]
    constructor
    · rintro (hmem | ⟨hc, _⟩)
      · exact absurd hmem (stuffing_issue_not_in_pre u)
      · simpa using hc
    · intro hc
      exact Or.inr ⟨by simpa using hc, by simp⟩

/-- Witness for C5 (amended) at the two-repeated-words path "/a-a-b-b". -/
theorem c5_amended_keyword_stuffing_witness :
    (analyzePath ⟨"https:", "example.com", "/a-a-b-b", "", []⟩).score = 85 ∧
    "URL appears to contain repeated keywords" ∈
      (analyzePath ⟨"https:", "example.com", "/a-a-b-b", "", []⟩).issues := by
  have h := c5_amended_keyword_stuffing ⟨"https:", "example.com", "/a-a-b-b", "", []⟩
  exact ⟨by rw [h.1]; decide, h.2.mpr (by decide)⟩

/-- Claim C10: `analyzeHeaders` is insensitive to the letter case of header
keys: two non-empty raw maps, each without case-colliding keys, whose
lowercased-key objects agree at every key, produce identical analysis
records. -/
theorem c10_analyzeHeaders_case_insensitive (m1 m2 : HeaderMap)
    (hnodup1 : (m1.map fun p => jsToLower p.1).Nodup)
    (hnodup2 : (m2.map fun p => jsToLower p.1).Nodup)
    (hne1 : m1 ≠ []) (hne2 : m2 ≠ [])
    (heq : ∀ k, normalizeHeaders m1 k = normalizeHeaders m2 k) :
    analyzeHeaders m1 = analyzeHeaders m2 := by
  have hfun : normalizeHeaders m1 = normalizeHeaders m2 := funext heq
  have hl1 : ¬ m1.length = 0 := by simpa [List.length_eq_zero] using hne1
  have hl2 : ¬ m2.length = 0 := by simpa [List.length_eq_zero] using hne2
  unfold analyzeHeaders
  rw [if_neg hl1, if_neg hl2, hfun]

/-- Witness for C10: the same header under two spellings of its key. -/
theorem c10_analyzeHeaders_case_insensitive_witness :
    analyzeHeaders [("Content-Type", "text/html")] =
      analyzeHeaders [("content-TYPE", "text/html")] :=
  c10_analyzeHeaders_case_insensitive _ _ (by decide) (by decide)
    (by decide) (by decide) (fun _ => rfl)

/-- Claim C1 counterexample: with the headers analyzer throwing first and
the URL analyzer succeeding after it, the URL analyzer's result is absent
from the returned assignments — the single try/catch records the
structured error but skips every remaining analyzer. -/
theorem c1_counterexample :
    (runAdvancedAnalysis [("headersAnalysis", Except.error ⟨"boom", "trace"⟩),
        ("urlAnalysis", Except.ok (42 : Int))]).2 =
      [⟨"advanced_analysis_error", "boom", "trace"⟩] ∧
    ("urlAnalysis", (42 : Int)) ∉
      (runAdvancedAnalysis [("headersAnalysis", Except.error ⟨"boom", "trace"⟩),
        ("urlAnalysis", Except.ok (42 : Int))]).1 := by
  exact ⟨rfl, by decide⟩

/-- Claim C1 (amended): if an advanced analyzer throws, the exception is
caught and recorded as a structured `advanced_analysis_error` entry with
the exception's message and stack, and the record keeps the results of
the analyzers that ran before the throw; the analyzers after the throwing
one are skipped rather than run. -/
theorem c1_amended_first_throw_aborts_block {α : Type}
    (pre post : List (String × Except JsError α)) (key : String) (e : JsError)
    (hpre : ∀ s ∈ pre, ∃ v, s.2 = Except.ok v) :
    runAdvancedAnalysis (pre ++ (key, Except.error e) :: post) =
      (okResults pre, [⟨"advanced_analysis_error", e.message, e.stack⟩]) := by
  induction pre with
  | nil => rfl
  | cons s rest ih =>
      obtain ⟨v, hv⟩ := hpre s (List.mem_cons_self _ _)
      obtain ⟨k', out⟩ := s
      simp only at hv
      subst hv
      have ih' := ih fun x hx => hpre x (List.mem_cons_of_mem _ hx)
      simp only [List.cons_append, runAdvancedAnalysis, okResults, List.append_eq]
      rw [ih']

/-- Witness for C1 (amended): one successful step, a throw, one skipped step. -/
theorem c1_amended_first_throw_aborts_block_witness :
    runAdvancedAnalysis [("headersAnalysis", Except.ok (7 : Int)),
        ("urlAnalysis", Except.error ⟨"boom", "trace"⟩),
        ("socialMediaAnalysis", Except.ok (9 : Int))] =
      ([("headersAnalysis", (7 : Int))],
       [⟨"advanced_analysis_error", "boom", "trace"⟩]) :=
  c1_amended_first_throw_aborts_block
    [("headersAnalysis", Except.ok (7 : Int))]
    [("socialMediaAnalysis", Except.ok (9 : Int))]
    "urlAnalysis" ⟨"boom", "trace"⟩
    (by rintro s hs; rcases List.mem_singleton.mp hs with rfl; exact ⟨7, rfl⟩)


/-- Claim C8: for every well-formed aggregation record, writing it with
the JSON report emitter (`JSON.stringify(results, null, 2)`) and
re-parsing the written text (`JSON.parse`) returns exactly the original
record. -/
theorem c8_json_report_round_trip (results : Json) (h : results.wf = true) :
    jsParse (generateJSONReportContents results) = some results := by
  unfold jsParse generateJSONReportContents
  rw [toList_asString]
  have hlen : needV results ≤ (printJson 0 results).length + 1 := by
    have := needV_le_print results h 0
    omega
  have hV := (parse_print_aux ((printJson 0 results).length + 1)).1 results 0 [] [] h hlen
    rfl trivial
  simp only [List.nil_append, List.append_nil] at hV
  rw [hV]
  simp [dropWs]

/-- Witness for C8: a concrete report record with an object, a number, a
string, a boolean, null, and a nested array survives the round trip. -/
theorem c8_json_report_round_trip_witness :
    (Json.obj [("score", Json.num "85"),
               ("issues", Json.arr [Json.str "x", Json.null]),
               ("ok", Json.bool true)]).wf = true ∧
    jsParse (generateJSONReportContents
        (Json.obj [("score", Json.num "85"),
                   ("issues", Json.arr [Json.str "x", Json.null]),
                   ("ok", Json.bool true)])) =
      some (Json.obj [("score", Json.num "85"),
                      ("issues", Json.arr [Json.str "x", Json.null]),
                      ("ok", Json.bool true)]) := by
  have hwf : (Json.obj [("score", Json.num "85"),
      ("issues", Json.arr [Json.str "x", Json.null]),
      ("ok", Json.bool true)]).wf = true := by
    simp [Json.wf, wfMembers, wfElems, numLitOk, numStartChar, numChar]
  exact ⟨hwf, c8_json_report_round_trip _ hwf⟩

end SeoInfo
